import Mathlib

/-!
Shallow embedding of the discrete-event simulation kernel under
`src/simulation_engine/` (state_manager.py, event_scheduler.py,
flow_controller.py, deadlock_detector.py, config_manager.py, engine.py),
together with theorems settling the specification claims.

Modelling conventions:
* Python `float` timestamps and durations are modelled as `ℚ`.
* Python `dict`s are modelled as insertion-ordered association lists
  (`List (String × β)`); updating an existing key keeps its position,
  new keys are appended, matching CPython dict semantics.
* Python `set`s whose only observed operations are `add`/`discard`/
  membership/`len` are modelled as duplicate-free lists (add-if-absent).
* Raised exceptions are modelled with `Except`; a method that mutates
  `self` and may raise returns a pair of the `Except` result and the
  (possibly unchanged) object, mirroring "raise before mutating".
* `random.Random` is not reimplemented; the engine is parametrised by a
  deterministic sampling function `u : Int → Nat → ℚ → ℚ → ℚ` taking the
  seed, the number of previous draws, and the uniform bounds.  This is
  faithful to the reproducibility contract of `SeededRNG` (rng.py): for a
  fixed seed the sequence of draws is a pure function of the call index.
* Wall-clock behaviour (`time.time()`, `time.sleep`, pacing, `datetime`
  metadata) has no effect on the virtual-clock results and is not
  modelled; the `pause` flag is never set during a single-threaded run.
-/

namespace SimKernel

/-- Association-list update with CPython dict semantics: replace in place
if the key exists, otherwise append at the end. -/
def setA {β : Type} (l : List (String × β)) (k : String) (v : β) :
    List (String × β) :=
  match l with
  | [] => [(k, v)]
  | (k', v') :: t => if k' = k then (k, v) :: t else (k', v') :: setA t k v

/-- Association-list removal (`del d[k]` / dict deletion): drops the entry
with the given key, keeping every other entry in order. -/
def eraseA {β : Type} (l : List (String × β)) (k : String) :
    List (String × β) :=
  match l with
  | [] => []
  | (k', v') :: t => if k' = k then t else (k', v') :: eraseA t k

theorem lookup_setA_self {β : Type} (l : List (String × β)) (k : String) (v : β) :
    (setA l k v).lookup k = some v := by
  induction l with
  | nil => simp [setA, List.lookup]
  | cons h t ih =>
    obtain ⟨k', v'⟩ := h
    by_cases hk : k' = k
    · simp [setA, hk, List.lookup]
    · simp only [setA, if_neg hk, List.lookup]
      have : (k == k') = false := by
        simp [beq_iff_eq]; exact fun he => hk he.symm
      simp [this, ih]

theorem lookup_setA_ne {β : Type} (l : List (String × β)) (k k' : String) (v : β)
    (h : k' ≠ k) : (setA l k v).lookup k' = l.lookup k' := by
  have hkk : (k' == k) = false := by simp [beq_iff_eq, h]
  induction l with
  | nil =>
    simp [setA, List.lookup, hkk]
  | cons hd t ih =>
    obtain ⟨k₀, v₀⟩ := hd
    by_cases hk : k₀ = k
    · subst hk
      simp [setA, List.lookup, hkk]
    · simp only [setA, if_neg hk, List.lookup]
      by_cases hk' : k' = k₀
      · have h1 : (k' == k₀) = true := by simp [beq_iff_eq, hk']
        simp [h1]
      · have h1 : (k' == k₀) = false := by simp [beq_iff_eq, hk']
        simp [h1, ih]

/-- Device states, from `DeviceState` in state_manager.py. -/
inductive DeviceState
  | IDLE
  | PROCESSING
  | BLOCKED
  | FAILED
deriving DecidableEq, Repr

/-- Python string value of a device state (`DeviceState.value`). -/
def DeviceState.value : DeviceState → String
  | .IDLE => "Idle"
  | .PROCESSING => "Processing"
  | .BLOCKED => "Blocked"
  | .FAILED => "Failed"

/-- The six transition-event names submitted to `StateManager.transition`
anywhere in the kernel (the event alphabet of the state machine). -/
inductive FsmEvent
  | START_PROCESSING
  | COMPLETE_PROCESSING
  | BACKPRESSURE_DETECTED
  | BACKPRESSURE_CLEARED
  | FAILURE_DETECTED
  | RECOVERY_COMPLETE
deriving DecidableEq, Repr

/-- The transition table `StateManager._transitions` (state_manager.py,
lines 58-73), as a partial function: `none` means the event is absent
from the current state's row. -/
def transitionsTable : DeviceState → FsmEvent → Option DeviceState
  | .IDLE, .START_PROCESSING => some .PROCESSING
  | .IDLE, .FAILURE_DETECTED => some .FAILED
  | .PROCESSING, .COMPLETE_PROCESSING => some .IDLE
  | .PROCESSING, .FAILURE_DETECTED => some .FAILED
  | .PROCESSING, .BACKPRESSURE_DETECTED => some .BLOCKED
  | .BLOCKED, .BACKPRESSURE_CLEARED => some .IDLE
  | .BLOCKED, .FAILURE_DETECTED => some .FAILED
  | .FAILED, .RECOVERY_COMPLETE => some .IDLE
  | _, _ => none

/-- Error payload of `InvalidTransitionError` (device, current state and
event, as interpolated into the exception message). -/
structure InvalidTransitionError where
  device : String
  fromState : DeviceState
  event : FsmEvent
deriving DecidableEq, Repr

/-- One record of `StateManager._history`. -/
structure HistoryEntry where
  deviceId : String
  fromState : DeviceState
  toState : DeviceState
  event : FsmEvent
  timestamp : ℚ
deriving DecidableEq, Repr

/-- Per-device capacity record (`_device_capacity[device_id]`):
`{'capacity': int, 'active_flows': set}`.  `activeFlows` is a
duplicate-free list standing for the Python set. -/
structure DeviceCap where
  capacity : Nat
  activeFlows : List String
deriving DecidableEq, Repr

/-- State of `StateManager` (state_manager.py).  The injected
`current_time_fn` accessor is modelled by passing the current simulation
time to `transition` explicitly; the recovery callback is modelled at the
engine layer (`engineTransition`), which checks for the `FAILED` state
after each applied transition exactly as the callback hook does. -/
structure StateManager where
  states : List (String × DeviceState)
  history : List HistoryEntry
  deviceCapacity : List (String × DeviceCap)
deriving DecidableEq, Repr

def StateManager.empty : StateManager := ⟨[], [], []⟩

/-- Python `StateManager.get_state`: `self._states.get(device_id, IDLE)`. -/
def StateManager.getState (sm : StateManager) (deviceId : String) : DeviceState :=
  (sm.states.lookup deviceId).getD .IDLE

/-- Python `StateManager.transition`: validates the event against the row
of the current state, then records the new state and appends a history
entry; on an invalid event it raises, leaving the object unchanged.  The
second component is the state of the manager after the call. -/
def StateManager.transition (sm : StateManager) (now : ℚ) (deviceId : String)
    (event : FsmEvent) :
    Except InvalidTransitionError DeviceState × StateManager :=
  let currentState := sm.getState deviceId
  match transitionsTable currentState event with
  | none => (.error ⟨deviceId, currentState, event⟩, sm)
  | some newState =>
    (.ok newState,
      { sm with
        states := setA sm.states deviceId newState
        history := sm.history ++
          [⟨deviceId, currentState, newState, event, now⟩] })

/-- Python `StateManager.get_history(device_id)`. -/
def StateManager.getHistory (sm : StateManager) (deviceId : String) :
    List HistoryEntry :=
  sm.history.filter (fun h => h.deviceId = deviceId)

/-- Python `StateManager.initialize_capacity`. -/
def StateManager.initializeCapacity (sm : StateManager) (deviceId : String)
    (capacity : Nat) : StateManager :=
  { sm with deviceCapacity := setA sm.deviceCapacity deviceId ⟨capacity, []⟩ }

/-- Python `StateManager.has_capacity`: `True` when the device has no
capacity record, otherwise `len(active_flows) < capacity`. -/
def StateManager.hasCapacity (sm : StateManager) (deviceId : String) : Bool :=
  match sm.deviceCapacity.lookup deviceId with
  | none => true
  | some info => info.activeFlows.length < info.capacity

/-- Set-insert used for `active_flows.add(flow_id)`. -/
def addFlow (l : List String) (f : String) : List String :=
  if f ∈ l then l else l ++ [f]

/-- Python `StateManager.acquire_capacity`: returns `True` without any
record when the device is untracked; otherwise adds the flow to the
active set iff capacity remains and reports success. -/
def StateManager.acquireCapacity (sm : StateManager) (deviceId flowId : String) :
    Bool × StateManager :=
  match sm.deviceCapacity.lookup deviceId with
  | none => (true, sm)
  | some info =>
    if sm.hasCapacity deviceId then
      (true, { sm with
        deviceCapacity := setA sm.deviceCapacity deviceId
          { info with activeFlows := addFlow info.activeFlows flowId } })
    else
      (false, sm)

/-- Python `StateManager.release_capacity`: `discard` on the active set,
a no-op when the device is untracked or the flow absent. -/
def StateManager.releaseCapacity (sm : StateManager) (deviceId flowId : String) :
    StateManager :=
  match sm.deviceCapacity.lookup deviceId with
  | none => sm
  | some info =>
    { sm with
      deviceCapacity := setA sm.deviceCapacity deviceId
        { info with activeFlows := info.activeFlows.erase flowId } }

/-- Python `StateManager.get_active_flow_count`. -/
def StateManager.getActiveFlowCount (sm : StateManager) (deviceId : String) : Nat :=
  match sm.deviceCapacity.lookup deviceId with
  | none => 0
  | some info => info.activeFlows.length

/-- One call against the capacity interface of a given device: the two
mutating operations a flow performs. -/
inductive CapOp
  | acquire (flowId : String)
  | release (flowId : String)
deriving DecidableEq, Repr

/-- Application of one capacity call addressed at a device. -/
def applyCapOp (sm : StateManager) : String × CapOp → StateManager
  | (d, .acquire f) => (sm.acquireCapacity d f).2
  | (d, .release f) => sm.releaseCapacity d f

/-- Application of a sequence of capacity calls, in order. -/
def applyCapOps (sm : StateManager) (ops : List (String × CapOp)) : StateManager :=
  ops.foldl applyCapOp sm

/-- Abbreviation for the tracked capacity record of a device. -/
def lookupCap (sm : StateManager) (d : String) : Option DeviceCap :=
  sm.deviceCapacity.lookup d

/-- The transition table exactly as enumerated in §4.2 of the
specification (row order of the spec's table), written independently of
the `_transitions` dictionary embedded above. -/
def specTransitionRows : List (DeviceState × FsmEvent × DeviceState) :=
  [ (.IDLE, .START_PROCESSING, .PROCESSING),
    (.IDLE, .FAILURE_DETECTED, .FAILED),
    (.PROCESSING, .COMPLETE_PROCESSING, .IDLE),
    (.PROCESSING, .FAILURE_DETECTED, .FAILED),
    (.PROCESSING, .BACKPRESSURE_DETECTED, .BLOCKED),
    (.BLOCKED, .BACKPRESSURE_CLEARED, .IDLE),
    (.BLOCKED, .FAILURE_DETECTED, .FAILED),
    (.FAILED, .RECOVERY_COMPLETE, .IDLE) ]

/-- Lookup in the specification's table: the documented next state for a
(state, event) pair, or `none` when the event is not in that state's row. -/
def specRow (s : DeviceState) (e : FsmEvent) : Option DeviceState :=
  (specTransitionRows.find? (fun r => r.1 == s && r.2.1 == e)).map (·.2.2)

theorem specRow_eq_transitionsTable (s : DeviceState) (e : FsmEvent) :
    specRow s e = transitionsTable s e := by
  cases s <;> cases e <;> rfl

/-- C3: for every device and every state, `StateManager.transition` with
an event listed in that state's row of the specification's transition
table succeeds, moves the device to the documented next state and appends
exactly one history record; with any event not in that row it fails with
`InvalidTransitionError(device, from_state, event)` and leaves both the
device's state and the history unchanged. -/
theorem transition_matches_spec_table (sm : StateManager) (now : ℚ)
    (d : String) (e : FsmEvent) :
    (∀ ns, specRow (sm.getState d) e = some ns →
      sm.transition now d e =
        (.ok ns,
          { sm with
            states := setA sm.states d ns
            history := sm.history ++ [⟨d, sm.getState d, ns, e, now⟩] })) ∧
    (specRow (sm.getState d) e = none →
      sm.transition now d e = (.error ⟨d, sm.getState d, e⟩, sm)) := by
  constructor
  · intro ns h
    rw [specRow_eq_transitionsTable] at h
    simp only [StateManager.transition, h]
  · intro h
    rw [specRow_eq_transitionsTable] at h
    simp only [StateManager.transition, h]

/-- Witness for C3: a listed transition (Idle–START_PROCESSING) succeeds
as documented and an unlisted one (Idle–COMPLETE_PROCESSING) fails with
the structured error, both at a concrete manager. -/
theorem transition_matches_spec_table_witness :
    StateManager.empty.transition 0 "devA" .START_PROCESSING =
      (.ok .PROCESSING,
        ⟨[("devA", .PROCESSING)],
         [⟨"devA", .IDLE, .PROCESSING, .START_PROCESSING, 0⟩], []⟩) ∧
    StateManager.empty.transition 0 "devA" .COMPLETE_PROCESSING =
      (.error ⟨"devA", .IDLE, .COMPLETE_PROCESSING⟩, StateManager.empty) := by
  constructor
  · exact (transition_matches_spec_table StateManager.empty 0 "devA"
      .START_PROCESSING).1 .PROCESSING rfl
  · exact (transition_matches_spec_table StateManager.empty 0 "devA"
      .COMPLETE_PROCESSING).2 rfl

theorem length_addFlow_le (l : List String) (f : String) :
    (addFlow l f).length ≤ l.length + 1 := by
  unfold addFlow
  split
  · omega
  · simp

/-- Capacity invariant predicate for one device: the tracked record, if
any, carries capacity `c` and an active set of size at most `c`. -/
def CapBound (sm : StateManager) (d : String) (c : Nat) : Prop :=
  ∀ info, lookupCap sm d = some info →
    info.capacity = c ∧ info.activeFlows.length ≤ c

theorem capBound_applyCapOp {sm : StateManager} {d : String} {c : Nat}
    (h : CapBound sm d c) (op : String × CapOp) :
    CapBound (applyCapOp sm op) d c := by
  obtain ⟨d', op'⟩ := op
  intro info hinfo
  cases op' with
  | acquire f =>
    simp only [applyCapOp, StateManager.acquireCapacity] at hinfo
    revert hinfo
    split
    · intro hinfo; exact h info hinfo
    · rename_i info' hlk
      split
      · rename_i hcap
        intro hinfo
        by_cases hd : d' = d
        · subst hd
          simp only [lookupCap] at hinfo
          simp only [lookup_setA_self] at hinfo
          obtain rfl : ({ info' with
              activeFlows := addFlow info'.activeFlows f } : DeviceCap) = info :=
            by injection hinfo
          have h' := h info' hlk
          simp only [StateManager.hasCapacity, hlk] at hcap
          have hlt : info'.activeFlows.length < info'.capacity := by
            simpa using hcap
          refine ⟨h'.1, ?_⟩
          have := length_addFlow_le info'.activeFlows f
          simp only
          omega
        · simp only [lookupCap] at hinfo
          simp only [lookup_setA_ne _ _ _ _ (fun he => hd he.symm)] at hinfo
          exact h info hinfo
      · intro hinfo; exact h info hinfo
  | release f =>
    simp only [applyCapOp, StateManager.releaseCapacity] at hinfo
    revert hinfo
    split
    · intro hinfo; exact h info hinfo
    · rename_i info' hlk
      intro hinfo
      by_cases hd : d' = d
      · subst hd
        simp only [lookupCap] at hinfo
        simp only [lookup_setA_self] at hinfo
        obtain rfl : ({ info' with
            activeFlows := info'.activeFlows.erase f } : DeviceCap) = info :=
          by injection hinfo
        have h' := h info' hlk
        refine ⟨h'.1, ?_⟩
        have := info'.activeFlows.erase_sublist f |>.length_le
        simp only
        omega
      · simp only [lookupCap] at hinfo
        simp only [lookup_setA_ne _ _ _ _ (fun he => hd he.symm)] at hinfo
        exact h info hinfo

theorem capBound_applyCapOps {sm : StateManager} {d : String} {c : Nat}
    (h : CapBound sm d c) (ops : List (String × CapOp)) :
    CapBound (applyCapOps sm ops) d c := by
  induction ops generalizing sm with
  | nil => exact h
  | cons op rest ih => exact ih (capBound_applyCapOp h op)

/-- C2: once capacity tracking for a device is initialised with capacity
`c`, after any sequence of `acquire_capacity`/`release_capacity` calls
(addressed at any devices and flows) the device's active-flow set has
size at most `c`; moreover whenever a tracked device is at capacity,
`acquire_capacity` returns `False` and leaves the manager unchanged. -/
theorem capacity_never_exceeded (sm0 : StateManager) (d : String) (c : Nat)
    (ops : List (String × CapOp)) :
    (applyCapOps (sm0.initializeCapacity d c) ops).getActiveFlowCount d ≤ c ∧
    (∀ sm f, lookupCap sm d ≠ none → sm.hasCapacity d = false →
      sm.acquireCapacity d f = (false, sm)) := by
  constructor
  · have h0 : CapBound (sm0.initializeCapacity d c) d c := by
      intro info hinfo
      simp only [lookupCap, StateManager.initializeCapacity] at hinfo
      simp only [lookup_setA_self] at hinfo
      obtain rfl : (⟨c, []⟩ : DeviceCap) = info := by injection hinfo
      exact ⟨rfl, by simp⟩
    have h := capBound_applyCapOps h0 ops
    rw [StateManager.getActiveFlowCount]
    split
    · omega
    · rename_i info hlk
      exact (h info hlk).2
  · intro sm f hsome hcap
    rw [StateManager.acquireCapacity]
    split
    · rename_i hlk
      simp only [lookupCap] at hsome
      exact absurd hlk hsome
    · rw [hcap]
      simp

/-- Witness for C2: on a device of capacity 1, after acquiring two flows
the active count is 1 (not 2), and the second acquire at full capacity
returns `False` leaving the manager unchanged. -/
theorem capacity_never_exceeded_witness :
    (applyCapOps (StateManager.empty.initializeCapacity "devB" 1)
        [("devB", .acquire "f1"), ("devB", .acquire "f2")]).getActiveFlowCount
        "devB" ≤ 1 ∧
    (applyCapOps (StateManager.empty.initializeCapacity "devB" 1)
        [("devB", .acquire "f1")]).acquireCapacity "devB" "f2" =
      (false, applyCapOps (StateManager.empty.initializeCapacity "devB" 1)
        [("devB", .acquire "f1")]) := by
  refine ⟨(capacity_never_exceeded StateManager.empty "devB" 1
    [("devB", .acquire "f1"), ("devB", .acquire "f2")]).1, ?_⟩
  exact (capacity_never_exceeded StateManager.empty "devB" 1 []).2
    (applyCapOps (StateManager.empty.initializeCapacity "devB" 1)
      [("devB", .acquire "f1")]) "f2" (by decide) (by decide)

theorem lookupCap_none_applyCapOp {sm : StateManager} {d : String}
    (h : lookupCap sm d = none) (op : String × CapOp) :
    lookupCap (applyCapOp sm op) d = none := by
  obtain ⟨d', op'⟩ := op
  cases op' with
  | acquire f =>
    simp only [applyCapOp, StateManager.acquireCapacity]
    split
    · exact h
    · rename_i info' hlk
      split
      · by_cases hd : d' = d
        · subst hd; simp only [lookupCap] at h; rw [h] at hlk; cases hlk
        · simp only [lookupCap] at h ⊢
          rw [lookup_setA_ne _ _ _ _ (fun he => hd he.symm)]
          exact h
      · exact h
  | release f =>
    simp only [applyCapOp, StateManager.releaseCapacity]
    split
    · exact h
    · rename_i info' hlk
      by_cases hd : d' = d
      · subst hd; simp only [lookupCap] at h; rw [h] at hlk; cases hlk
      · simp only [lookupCap] at h ⊢
        rw [lookup_setA_ne _ _ _ _ (fun he => hd he.symm)]
        exact h

theorem lookupCap_none_applyCapOps {sm : StateManager} {d : String}
    (h : lookupCap sm d = none) (ops : List (String × CapOp)) :
    lookupCap (applyCapOps sm ops) d = none := by
  induction ops generalizing sm with
  | nil => exact h
  | cons op rest ih => exact ih (lookupCap_none_applyCapOp h op)

/-- C10: for a device never passed to `initialize_capacity`, after any
sequence of `acquire_capacity`/`release_capacity` calls the device is
still untracked, `has_capacity` is `True`, the active-flow count is 0,
every `acquire_capacity` returns `True` without recording anything, and
`release_capacity` is a no-op. -/
theorem untracked_device_unlimited (sm : StateManager) (d : String)
    (ops : List (String × CapOp)) (h : lookupCap sm d = none) :
    lookupCap (applyCapOps sm ops) d = none ∧
    (applyCapOps sm ops).hasCapacity d = true ∧
    (applyCapOps sm ops).getActiveFlowCount d = 0 ∧
    (∀ f, (applyCapOps sm ops).acquireCapacity d f =
      (true, applyCapOps sm ops)) ∧
    (∀ f, (applyCapOps sm ops).releaseCapacity d f = applyCapOps sm ops) := by
  have hnone := lookupCap_none_applyCapOps h ops
  simp only [lookupCap] at hnone
  refine ⟨by simp only [lookupCap]; exact hnone, ?_, ?_, ?_, ?_⟩
  · rw [StateManager.hasCapacity, hnone]
  · rw [StateManager.getActiveFlowCount, hnone]
  · intro f; rw [StateManager.acquireCapacity, hnone]
  · intro f; rw [StateManager.releaseCapacity, hnone]

/-- Witness for C10: concrete call sequence against an untracked device
(with a tracked sibling in the manager to exercise the general case). -/
theorem untracked_device_unlimited_witness :
    lookupCap (applyCapOps (StateManager.empty.initializeCapacity "devB" 1)
      [("devC", .acquire "f1"), ("devC", .release "f1"),
       ("devB", .acquire "f2")]) "devC" = none ∧
    (applyCapOps (StateManager.empty.initializeCapacity "devB" 1)
      [("devC", .acquire "f1"), ("devC", .release "f1"),
       ("devB", .acquire "f2")]).getActiveFlowCount "devC" = 0 := by
  have h := untracked_device_unlimited
    (StateManager.empty.initializeCapacity "devB" 1) "devC"
    [("devC", .acquire "f1"), ("devC", .release "f1"),
     ("devB", .acquire "f2")] (by decide)
  exact ⟨h.1, h.2.2.1⟩

/-- Simulation event (`Event` dataclass in event_scheduler.py): ordered
by `(timestamp, insertion_order)`; `event_id` and `callback` do not
participate in the ordering.  The callback payload is a type parameter
(the engine instantiates it with its pending-action type). -/
structure SchedEvent (α : Type) where
  timestamp : ℚ
  insertionOrder : Nat
  eventId : String
  callback : α
deriving DecidableEq, Repr

/-- Comparison key of two events, non-strict: the dataclass ordering
`(timestamp, insertion_order)` used by the heap. -/
def keyLe {α : Type} (a b : SchedEvent α) : Prop :=
  a.timestamp < b.timestamp ∨
    (a.timestamp = b.timestamp ∧ a.insertionOrder ≤ b.insertionOrder)

/-- Comparison key of two events, strict. -/
def keyLt {α : Type} (a b : SchedEvent α) : Prop :=
  a.timestamp < b.timestamp ∨
    (a.timestamp = b.timestamp ∧ a.insertionOrder < b.insertionOrder)

instance {α : Type} (a b : SchedEvent α) : Decidable (keyLe a b) := by
  unfold keyLe; infer_instance

instance {α : Type} (a b : SchedEvent α) : Decidable (keyLt a b) := by
  unfold keyLt; infer_instance

/-- State of `EventScheduler` (event_scheduler.py).  The heap list models
the `heapq` array as a multiset of pending events; extraction of the
minimum below models `heappop`/`heap[0]`. -/
structure EventScheduler (α : Type) where
  heap : List (SchedEvent α)
  currentTime : ℚ
  insertionCounter : Nat
  registry : List (String × SchedEvent α)
deriving DecidableEq, Repr

def EventScheduler.empty {α : Type} : EventScheduler α := ⟨[], 0, 0, []⟩

/-- Python `EventScheduler.schedule`: raises when the timestamp is in the
past, otherwise pushes the event and bumps the insertion counter. -/
def EventScheduler.schedule {α : Type} (s : EventScheduler α) (timestamp : ℚ)
    (eventId : String) (callback : α) : Except String (EventScheduler α) :=
  if timestamp < s.currentTime then
    .error "Cannot schedule event in the past"
  else
    let event : SchedEvent α := ⟨timestamp, s.insertionCounter, eventId, callback⟩
    .ok { s with
      heap := s.heap ++ [event]
      registry := setA s.registry eventId event
      insertionCounter := s.insertionCounter + 1 }

/-- Extraction of the minimum-key event (`heapq.heappop`): returns the
leftmost event with minimal `(timestamp, insertion_order)` and the
remaining events. -/
def popMin {α : Type} : List (SchedEvent α) →
    Option (SchedEvent α × List (SchedEvent α))
  | [] => none
  | e :: t =>
    match popMin t with
    | none => some (e, t)
    | some (m, r) => if keyLe e m then some (e, t) else some (m, e :: r)

/-- Python `EventScheduler.process_next` up to the callback invocation:
raises on an empty heap, otherwise pops the minimum event, removes it
from the registry and advances the clock to its timestamp.  The popped
event is returned so that the caller (the engine loop) runs its callback,
whose effects are therefore applied before the iteration completes. -/
def EventScheduler.processNext {α : Type} (s : EventScheduler α) :
    Except String (SchedEvent α × EventScheduler α) :=
  match popMin s.heap with
  | none => .error "No events to process"
  | some (e, rest) =>
    .ok (e, { s with
      heap := rest
      registry := eraseA s.registry e.eventId
      currentTime := e.timestamp })

/-- Python `EventScheduler.peek_next`: `heap[0]`, the heap minimum, or
`None` when empty. -/
def EventScheduler.peekNext {α : Type} (s : EventScheduler α) :
    Option (SchedEvent α) :=
  (popMin s.heap).map (·.1)

/-- Python `EventScheduler.has_events`. -/
def EventScheduler.hasEvents {α : Type} (s : EventScheduler α) : Bool :=
  !s.heap.isEmpty

/-- Python `EventScheduler.cancel`: removes a pending event by id,
rebuilding the heap without it. -/
def EventScheduler.cancel {α : Type} (s : EventScheduler α) (eventId : String) :
    Bool × EventScheduler α :=
  match s.registry.lookup eventId with
  | none => (false, s)
  | some _ =>
    (true, { s with
      registry := eraseA s.registry eventId
      heap := s.heap.filter (fun e => e.eventId ≠ eventId) })

theorem popMin_cons_none {α : Type} {e : SchedEvent α} {t : List (SchedEvent α)}
    (ht : popMin t = none) : popMin (e :: t) = some (e, t) := by
  rw [popMin, ht]

theorem popMin_cons_some {α : Type} {e m : SchedEvent α}
    {t r : List (SchedEvent α)} (ht : popMin t = some (m, r)) :
    popMin (e :: t) =
      if keyLe e m then some (e, t) else some (m, e :: r) := by
  rw [popMin, ht]

theorem popMin_eq_none_iff {α : Type} (l : List (SchedEvent α)) :
    popMin l = none ↔ l = [] := by
  cases l with
  | nil => simp [popMin]
  | cons e t =>
    constructor
    · intro h
      exfalso
      rcases ht : popMin t with _ | ⟨m, r⟩
      · rw [popMin_cons_none ht] at h; exact Option.noConfusion h
      · rw [popMin_cons_some ht] at h
        by_cases hle : keyLe e m
        · rw [if_pos hle] at h; exact Option.noConfusion h
        · rw [if_neg hle] at h; exact Option.noConfusion h
    · intro h; cases h

theorem popMin_mem {α : Type} {l : List (SchedEvent α)} {e : SchedEvent α}
    {r : List (SchedEvent α)} (h : popMin l = some (e, r)) : e ∈ l := by
  induction l generalizing e r with
  | nil => cases h
  | cons a t ih =>
    rcases ht : popMin t with _ | ⟨m, rest⟩
    · rw [popMin_cons_none ht] at h
      simp only [Option.some.injEq, Prod.mk.injEq] at h
      obtain ⟨rfl, rfl⟩ := h
      exact List.mem_cons_self _ _
    · rw [popMin_cons_some ht] at h
      by_cases hle : keyLe a m
      · rw [if_pos hle] at h
        simp only [Option.some.injEq, Prod.mk.injEq] at h
        obtain ⟨rfl, rfl⟩ := h
        exact List.mem_cons_self _ _
      · rw [if_neg hle] at h
        simp only [Option.some.injEq, Prod.mk.injEq] at h
        obtain ⟨rfl, rfl⟩ := h
        exact List.mem_cons_of_mem _ (ih ht)

theorem keyLe_refl {α : Type} (a : SchedEvent α) : keyLe a a := by
  unfold keyLe; right; exact ⟨rfl, le_refl _⟩

theorem keyLe_trans {α : Type} {a b c : SchedEvent α}
    (h1 : keyLe a b) (h2 : keyLe b c) : keyLe a c := by
  unfold keyLe at *
  rcases h1 with h1 | ⟨h1, h1'⟩ <;> rcases h2 with h2 | ⟨h2, h2'⟩
  · exact Or.inl (lt_trans h1 h2)
  · exact Or.inl (h2 ▸ h1)
  · exact Or.inl (h1 ▸ h2)
  · exact Or.inr ⟨h1.trans h2, h1'.trans h2'⟩

theorem keyLe_total {α : Type} (a b : SchedEvent α) :
    keyLe a b ∨ keyLe b a := by
  unfold keyLe
  rcases lt_trichotomy a.timestamp b.timestamp with h | h | h
  · exact Or.inl (Or.inl h)
  · rcases Nat.le_total a.insertionOrder b.insertionOrder with h' | h'
    · exact Or.inl (Or.inr ⟨h, h'⟩)
    · exact Or.inr (Or.inr ⟨h.symm, h'⟩)
  · exact Or.inr (Or.inl h)

theorem popMin_le {α : Type} {l : List (SchedEvent α)} {e : SchedEvent α}
    {r : List (SchedEvent α)} (h : popMin l = some (e, r)) :
    ∀ x ∈ l, keyLe e x := by
  induction l generalizing e r with
  | nil => cases h
  | cons a t ih =>
    rcases ht : popMin t with _ | ⟨m, rest⟩
    · rw [popMin_cons_none ht] at h
      obtain rfl : t = [] := (popMin_eq_none_iff t).1 ht
      simp only [Option.some.injEq, Prod.mk.injEq] at h
      obtain ⟨rfl, rfl⟩ := h
      intro x hx
      rcases List.mem_cons.1 hx with rfl | hx
      · exact keyLe_refl _
      · cases hx
    · rw [popMin_cons_some ht] at h
      by_cases hle : keyLe a m
      · rw [if_pos hle] at h
        simp only [Option.some.injEq, Prod.mk.injEq] at h
        obtain ⟨rfl, rfl⟩ := h
        intro x hx
        rcases List.mem_cons.1 hx with rfl | hx
        · exact keyLe_refl _
        · exact keyLe_trans hle (ih ht x hx)
      · rw [if_neg hle] at h
        simp only [Option.some.injEq, Prod.mk.injEq] at h
        obtain ⟨he, hr⟩ := h
        subst he
        subst hr
        intro x hx
        rcases List.mem_cons.1 hx with hxa | hx
        · rw [hxa]
          exact (keyLe_total a m).resolve_left hle
        · exact ih ht x hx

theorem popMin_perm {α : Type} {l : List (SchedEvent α)} {e : SchedEvent α}
    {r : List (SchedEvent α)} (h : popMin l = some (e, r)) :
    l.Perm (e :: r) := by
  induction l generalizing e r with
  | nil => cases h
  | cons a t ih =>
    rcases ht : popMin t with _ | ⟨m, rest⟩
    · rw [popMin_cons_none ht] at h
      simp only [Option.some.injEq, Prod.mk.injEq] at h
      obtain ⟨rfl, rfl⟩ := h
      exact List.Perm.refl _
    · rw [popMin_cons_some ht] at h
      by_cases hle : keyLe a m
      · rw [if_pos hle] at h
        simp only [Option.some.injEq, Prod.mk.injEq] at h
        obtain ⟨rfl, rfl⟩ := h
        exact List.Perm.refl _
      · rw [if_neg hle] at h
        simp only [Option.some.injEq, Prod.mk.injEq] at h
        obtain ⟨rfl, rfl⟩ := h
        exact ((ih ht).cons a).trans (List.Perm.swap m a rest)

/-- Well-formedness maintained by `schedule`: pairwise-distinct insertion
orders in the heap (the counter is strictly increasing). -/
def DistinctOrders {α : Type} (l : List (SchedEvent α)) : Prop :=
  l.Pairwise (fun a b => a.insertionOrder ≠ b.insertionOrder)

theorem popMin_strict {α : Type} {l : List (SchedEvent α)} {e : SchedEvent α}
    {r : List (SchedEvent α)} (h : popMin l = some (e, r))
    (hwf : DistinctOrders l) : ∀ x ∈ r, keyLt e x := by
  intro x hx
  have hperm := popMin_perm h
  unfold DistinctOrders at hwf
  have hpw : (e :: r).Pairwise
      (fun a b => a.insertionOrder ≠ b.insertionOrder) :=
    (hperm.pairwise_iff (fun hab => Ne.symm hab)).1 hwf
  have hne : e.insertionOrder ≠ x.insertionOrder :=
    (List.pairwise_cons.1 hpw).1 x hx
  have hle : keyLe e x :=
    popMin_le h x (hperm.mem_iff.2 (List.mem_cons_of_mem _ hx))
  unfold keyLe at hle
  unfold keyLt
  rcases hle with h' | ⟨h1, h2⟩
  · exact Or.inl h'
  · exact Or.inr ⟨h1, lt_of_le_of_ne h2 hne⟩

/-- Deadlock types (deadlock_detector.py). -/
inductive DeadlockType
  | TIMEOUT
  | CIRCULAR_WAIT
deriving DecidableEq, Repr

/-- Payload of a detected deadlock (`DeadlockInfo` dataclass).  The field
`type` is named `dtype` because `type` is reserved in Lean. -/
structure DeadlockInfo where
  dtype : DeadlockType
  involvedDevices : List String
  involvedFlows : List String
  detectionTime : ℚ
  message : String
  waitChain : Option (List String)
deriving DecidableEq, Repr

/-- State of `DeadlockDetector`: the timeout threshold, the
insertion-ordered map of blocked-entry times, the wait-for adjacency map
(sets as duplicate-free lists) and the set of already-reported deadlock
keys. -/
structure DeadlockDetector where
  timeoutThreshold : ℚ
  blockedSince : List (String × ℚ)
  waitingFor : List (String × List String)
  detectedDeadlocks : List String
deriving DecidableEq, Repr

/-- Python `int()` applied to a float: truncation toward zero. -/
def pyInt (q : ℚ) : Int :=
  if q < 0 then -((-q).floor) else q.floor

/-- Deduplication key of a timeout deadlock:
`f"timeout_{device_id}_{int(blocked_since)}"`. -/
def timeoutKey (deviceId : String) (blockedSince : ℚ) : String :=
  "timeout_" ++ deviceId ++ "_" ++ toString (pyInt blockedSince)

/-- Text of the timeout message (numeric rendering of the durations is
simplified relative to Python's `:.1f` formatting). -/
def timeoutMessage (deviceId : String) (blockedDuration thr : ℚ)
    (waitingFor : List String) : String :=
  "Timeout deadlock: Device \x27" ++ deviceId ++ "\x27 has been BLOCKED for " ++
    toString blockedDuration ++ "s (threshold: " ++ toString thr ++ "s). " ++
    (if waitingFor.isEmpty then "No downstream capacity available."
     else "Waiting for: " ++ String.intercalate ", " waitingFor)

/-- The wait-for set of a device, as the list the detector reports
(`list(self._waiting_for.get(device_id, set()))`). -/
def waitingList (det : DeadlockDetector) (deviceId : String) : List String :=
  (det.waitingFor.lookup deviceId).getD []

/-- Python `DeadlockDetector.register_blocked`. -/
def DeadlockDetector.registerBlocked (det : DeadlockDetector)
    (deviceId : String) (currentTime : ℚ) (waitingForDevice : Option String) :
    DeadlockDetector :=
  let det :=
    if (det.blockedSince.lookup deviceId).isNone then
      { det with blockedSince := det.blockedSince ++ [(deviceId, currentTime)] }
    else det
  match waitingForDevice with
  | none => det
  | some w =>
    let cur := (det.waitingFor.lookup deviceId).getD []
    { det with waitingFor := setA det.waitingFor deviceId (addFlow cur w) }

/-- Python `DeadlockDetector.register_unblocked`. -/
def DeadlockDetector.registerUnblocked (det : DeadlockDetector)
    (deviceId : String) : DeadlockDetector :=
  { det with
    blockedSince := eraseA det.blockedSince deviceId
    waitingFor :=
      (eraseA det.waitingFor deviceId).map
        (fun p => (p.1, p.2.erase deviceId)) }

/-- Scan of `_check_timeout_deadlock` over the blocked-since map, in
insertion order, threading the reported-deadlock set. -/
def checkTimeoutLoop (thr : ℚ) (waiting : List (String × List String))
    (detected : List String) (now : ℚ) :
    List (String × ℚ) → Option DeadlockInfo × List String
  | [] => (none, detected)
  | (deviceId, since) :: rest =>
    if now - since > thr then
      let key := timeoutKey deviceId since
      if key ∈ detected then
        checkTimeoutLoop thr waiting detected now rest
      else
        let waitingFor := (waiting.lookup deviceId).getD []
        (some ⟨.TIMEOUT, deviceId :: waitingFor, [], now,
          timeoutMessage deviceId (now - since) thr waitingFor, none⟩,
         detected ++ [key])
    else checkTimeoutLoop thr waiting detected now rest

/-- Python `DeadlockDetector._check_timeout_deadlock`. -/
def DeadlockDetector.checkTimeoutDeadlock (det : DeadlockDetector) (now : ℚ) :
    Option DeadlockInfo × DeadlockDetector :=
  ((checkTimeoutLoop det.timeoutThreshold det.waitingFor
      det.detectedDeadlocks now det.blockedSince).1,
   { det with detectedDeadlocks :=
      (checkTimeoutLoop det.timeoutThreshold det.waitingFor
        det.detectedDeadlocks now det.blockedSince).2 })

/-- Generic inner loop of `find_cycle_dfs` over the wait-for targets of
the current node, parametrised by the recursive visit at the remaining
fuel (structural recursion over the target list). -/
def findCycleGo
    (visit : List String → List String → String →
      Option (List String) × List String) :
    List String → List String → List String →
    Option (List String) × List String
  | visited, _, [] => (none, visited)
  | visited, path, w :: ws =>
    if w ∉ visited then
      match visit visited path w with
      | (some c, v') => (some c, v')
      | (none, v') => findCycleGo visit v' path ws
    else if w ∈ path then
      (some (path.drop (path.indexOf w) ++ [w]), visited)
    else findCycleGo visit visited path ws

/-- DFS of `find_cycle_dfs` (deadlock_detector.py): `visited` is the
shared visited set, `path` the recursion stack in root-first order (its
membership doubles for `rec_stack`).  Fuel bounds the recursion depth;
callers supply more fuel than the number of graph nodes, so exhaustion is
unreachable. -/
def findCycleVisit (wf : List (String × List String)) :
    Nat → List String → List String → String →
    Option (List String) × List String
  | 0, visited, _, _ => (none, visited)
  | fuel + 1, visited, path, node =>
    findCycleGo (findCycleVisit wf fuel) (node :: visited) (path ++ [node])
      ((wf.lookup node).getD [])

/-- Loop of `_check_circular_wait_deadlock` over the wait-for keys,
threading the visited set and the reported-deadlock set. -/
def checkCircularLoop (wf : List (String × List String)) (fuel : Nat)
    (detected : List String) (now : ℚ) (visited : List String) :
    List String → Option DeadlockInfo × List String
  | [] => (none, detected)
  | device :: rest =>
    if device ∉ visited then
      match findCycleVisit wf fuel visited [] device with
      | (some cycle, v') =>
        if ("cycle_" ++ String.intercalate "_"
            (cycle.mergeSort (fun a b => decide (a ≤ b)))) ∈ detected then
          checkCircularLoop wf fuel detected now v' rest
        else
          (some ⟨.CIRCULAR_WAIT, cycle.eraseDups, [], now,
            "Circular wait deadlock detected: " ++
              String.intercalate " -> " cycle ++
              ". Devices are waiting in a circle, creating a deadlock. " ++
              "Involved: " ++ String.intercalate ", " cycle.eraseDups,
            some cycle⟩,
           detected ++ ["cycle_" ++ String.intercalate "_"
            (cycle.mergeSort (fun a b => decide (a ≤ b)))])
      | (none, v') => checkCircularLoop wf fuel detected now v' rest
    else checkCircularLoop wf fuel detected now visited rest

/-- Python `DeadlockDetector._check_circular_wait_deadlock`. -/
def DeadlockDetector.checkCircularWaitDeadlock (det : DeadlockDetector)
    (now : ℚ) : Option DeadlockInfo × DeadlockDetector :=
  if det.waitingFor.isEmpty then (none, det)
  else
    ((checkCircularLoop det.waitingFor
        (det.waitingFor.length +
          (det.waitingFor.map (fun p => p.2.length)).sum + 1)
        det.detectedDeadlocks now []
        (det.waitingFor.map (fun p => p.1))).1,
     { det with detectedDeadlocks :=
        (checkCircularLoop det.waitingFor
          (det.waitingFor.length +
            (det.waitingFor.map (fun p => p.2.length)).sum + 1)
          det.detectedDeadlocks now []
          (det.waitingFor.map (fun p => p.1))).2 })

/-- Python `DeadlockDetector.check_deadlock`: timeout strategy first,
then graph strategy. -/
def DeadlockDetector.checkDeadlock (det : DeadlockDetector) (now : ℚ) :
    Option DeadlockInfo × DeadlockDetector :=
  match det.checkTimeoutDeadlock now with
  | (some info, det') => (some info, det')
  | (none, det') => det'.checkCircularWaitDeadlock now

theorem checkTimeoutLoop_some {thr : ℚ} {waiting : List (String × List String)}
    {detected : List String} {now : ℚ} {l : List (String × ℚ)}
    {r : DeadlockInfo} {detected' : List String}
    (h : checkTimeoutLoop thr waiting detected now l = (some r, detected')) :
    ∃ dev t, (dev, t) ∈ l ∧ timeoutKey dev t ∉ detected ∧
      r.dtype = .TIMEOUT ∧
      r.involvedDevices = dev :: (waiting.lookup dev).getD [] := by
  induction l with
  | nil => cases h
  | cons p rest ih =>
    obtain ⟨deviceId, since⟩ := p
    rw [checkTimeoutLoop] at h
    by_cases hc : now - since > thr
    · rw [if_pos hc] at h
      by_cases hk : timeoutKey deviceId since ∈ detected
      · rw [if_pos hk] at h
        obtain ⟨dev, t, hmem, hnk, hty, hinv⟩ := ih h
        exact ⟨dev, t, List.mem_cons_of_mem _ hmem, hnk, hty, hinv⟩
      · rw [if_neg hk] at h
        simp only [Prod.mk.injEq, Option.some.injEq] at h
        refine ⟨deviceId, since, List.mem_cons_self _ _, hk, ?_, ?_⟩
        · rw [← h.1]
        · rw [← h.1]
    · rw [if_neg hc] at h
      obtain ⟨dev, t, hmem, hnk, hty, hinv⟩ := ih h
      exact ⟨dev, t, List.mem_cons_of_mem _ hmem, hnk, hty, hinv⟩

theorem checkCircularLoop_some {wf : List (String × List String)} {fuel : Nat}
    {detected : List String} {now : ℚ} {visited keys : List String}
    {r : DeadlockInfo} {detected' : List String}
    (h : checkCircularLoop wf fuel detected now visited keys =
      (some r, detected')) : r.dtype = .CIRCULAR_WAIT := by
  induction keys generalizing visited with
  | nil => cases h
  | cons device rest ih =>
    rw [checkCircularLoop] at h
    split at h
    · split at h
      · split at h
        · exact ih h
        · simp only [Prod.mk.injEq, Option.some.injEq] at h
          rw [← h.1]
      · exact ih h
    · exact ih h

/-- C6: when the earliest-registered blocked device `d` (entered Blocked
at `t0`) has been blocked for longer than the timeout threshold and this
occurrence has not been reported yet, `check_deadlock` returns a Timeout
`DeadlockInfo` whose `involved_devices` is `d` followed by the devices it
waits for and whose `detection_time` is `now`; and afterwards no repeated
check ever reports a Timeout deadlock for `d` again (same device, same
blocked-start time), so the same deadlock is reported only once. -/
theorem deadlock_timeout_reported_once (det : DeadlockDetector) (d : String)
    (t0 now now' : ℚ) (rest : List (String × ℚ))
    (hb : det.blockedSince = (d, t0) :: rest)
    (hkeys : ∀ t, (d, t) ∈ det.blockedSince → t = t0)
    (ht : now - t0 > det.timeoutThreshold)
    (hkey : timeoutKey d t0 ∉ det.detectedDeadlocks) :
    ∃ det',
      det.checkDeadlock now =
        (some ⟨.TIMEOUT, d :: waitingList det d, [], now,
          timeoutMessage d (now - t0) det.timeoutThreshold (waitingList det d),
          none⟩, det') ∧
      det'.blockedSince = det.blockedSince ∧
      det'.waitingFor = det.waitingFor ∧
      timeoutKey d t0 ∈ det'.detectedDeadlocks ∧
      (∀ r det'', det'.checkDeadlock now' = (some r, det'') →
        ¬(r.dtype = .TIMEOUT ∧ r.involvedDevices.head? = some d)) := by
  have hloop : checkTimeoutLoop det.timeoutThreshold det.waitingFor
      det.detectedDeadlocks now det.blockedSince =
      (some ⟨.TIMEOUT, d :: waitingList det d, [], now,
        timeoutMessage d (now - t0) det.timeoutThreshold (waitingList det d),
        none⟩, det.detectedDeadlocks ++ [timeoutKey d t0]) := by
    rw [hb, checkTimeoutLoop, if_pos ht, if_neg hkey]
    rfl
  refine ⟨{ det with
    detectedDeadlocks := det.detectedDeadlocks ++ [timeoutKey d t0] }, ?_, rfl,
    rfl, by simp, ?_⟩
  · rw [DeadlockDetector.checkDeadlock, DeadlockDetector.checkTimeoutDeadlock,
      hloop]
  · intro r det'' hchk ⟨hty, hhead⟩
    rw [DeadlockDetector.checkDeadlock] at hchk
    rcases hloop2 : DeadlockDetector.checkTimeoutDeadlock
        { det with detectedDeadlocks :=
            det.detectedDeadlocks ++ [timeoutKey d t0] } now' with ⟨ro, deto⟩
    rw [hloop2] at hchk
    rcases ro with _ | info
    · have hcirc : deto.checkCircularWaitDeadlock now' = (some r, det'') := hchk
      rw [DeadlockDetector.checkCircularWaitDeadlock] at hcirc
      by_cases hemp : deto.waitingFor.isEmpty
      · rw [if_pos hemp] at hcirc
        simp at hcirc
      · rw [if_neg hemp] at hcirc
        rcases hcl : checkCircularLoop deto.waitingFor
            (deto.waitingFor.length +
              (deto.waitingFor.map (fun p => p.2.length)).sum + 1)
            deto.detectedDeadlocks now' []
            (deto.waitingFor.map (fun p => p.1)) with ⟨rr, dd⟩
        rw [hcl] at hcirc
        simp only [Prod.mk.injEq] at hcirc
        obtain ⟨hrr, _⟩ := hcirc
        rw [hrr] at hcl
        have hcw := checkCircularLoop_some hcl
        rw [hty] at hcw
        exact DeadlockType.noConfusion hcw
    · have hpair : ((some info : Option DeadlockInfo), deto) = (some r, det'') :=
        hchk
      simp only [Prod.mk.injEq, Option.some.injEq] at hpair
      obtain ⟨hir, _⟩ := hpair
      simp only [DeadlockDetector.checkTimeoutDeadlock, Prod.mk.injEq] at hloop2
      obtain ⟨hro, _⟩ := hloop2
      rcases htl : checkTimeoutLoop det.timeoutThreshold det.waitingFor
          (det.detectedDeadlocks ++ [timeoutKey d t0]) now'
          det.blockedSince with ⟨rr, dd⟩
      rw [htl] at hro
      have hro' : rr = some info := hro
      rw [hro'] at htl
      obtain ⟨dev, t, hmem, hnk, _, hinv⟩ := checkTimeoutLoop_some htl
      have hdev : dev = d := by
        rw [hir] at hinv
        rw [hinv] at hhead
        simpa using hhead
      subst hdev
      have ht0 : t = t0 := hkeys t hmem
      subst ht0
      exact hnk (by simp)

/-- Witness for C6: a detector with device A blocked since t=0 waiting on
B, threshold 300, checked at t=301; the Timeout info is reported with
involved devices [A, B] and detection time 301, and a repeated check at
t=302 does not re-report it. -/
theorem deadlock_timeout_reported_once_witness :
    ∃ det',
      DeadlockDetector.checkDeadlock
        ⟨300, [("devA", 0)], [("devA", ["devB"])], []⟩ 301 =
        (some ⟨.TIMEOUT, "devA" :: ["devB"], [], 301,
          timeoutMessage "devA" (301 - 0) 300 ["devB"], none⟩, det') ∧
      (∀ r det'', det'.checkDeadlock 302 = (some r, det'') →
        ¬(r.dtype = .TIMEOUT ∧ r.involvedDevices.head? = some "devA")) := by
  obtain ⟨det', h1, _, _, _, h5⟩ := deadlock_timeout_reported_once
    ⟨300, [("devA", 0)], [("devA", ["devB"])], []⟩ "devA" 0 301 302
    [] rfl (by intro t htm; simpa using htm) (by norm_num) (by simp)
  exact ⟨det', h1, h5⟩

/-- Detector for the C6 counterexample: two devices registered as
blocked at t = 0, in the order `devA` then `devB`, neither waiting on
anyone, nothing reported yet. -/
def c6Det : DeadlockDetector :=
  ⟨300, [("devA", 0), ("devB", 0)], [], []⟩

/-- C6 counterexample: `devB` is registered as blocked at t0 = 0 and
`301 - 0` exceeds the 300 s threshold, yet `check_deadlock` at t = 301
returns the Timeout info of the earlier-registered `devA`, whose
`involved_devices` does not begin with `devB` — because
`_check_timeout_deadlock` scans the blocked devices in registration
order and returns the first eligible one.  The per-device claim
therefore fails for every over-threshold device other than the first. -/
theorem timeout_report_not_per_device :
    c6Det.blockedSince.lookup "devB" = some 0 ∧
    ((301 : ℚ) - 0 > 300) ∧
    (c6Det.checkDeadlock 301).1 =
      some ⟨.TIMEOUT, ["devA"], [], 301,
        timeoutMessage "devA" ((301 : ℚ) - 0) 300 [], none⟩ ∧
    ((c6Det.checkDeadlock 301).1.map (fun i => i.involvedDevices)) ≠
      some ("devB" :: waitingList c6Det "devB") := by
  have hgt : ((301 : ℚ) - 0 > 300) := by norm_num
  have hloop : checkTimeoutLoop c6Det.timeoutThreshold c6Det.waitingFor
      c6Det.detectedDeadlocks 301 c6Det.blockedSince =
      (some ⟨.TIMEOUT, ["devA"], [], 301,
        timeoutMessage "devA" ((301 : ℚ) - 0) 300 [], none⟩,
       [timeoutKey "devA" 0]) := by
    show checkTimeoutLoop 300 [] [] 301 [("devA", 0), ("devB", 0)] = _
    rw [checkTimeoutLoop, if_pos hgt]
    rfl
  have hchk : (c6Det.checkDeadlock 301).1 =
      some ⟨.TIMEOUT, ["devA"], [], 301,
        timeoutMessage "devA" ((301 : ℚ) - 0) 300 [], none⟩ := by
    rw [DeadlockDetector.checkDeadlock,
      DeadlockDetector.checkTimeoutDeadlock, hloop]
  refine ⟨rfl, hgt, hchk, ?_⟩
  rw [hchk]
  decide

/-- Output options consumed by `_generate_output`
(`output_options.include_history` / `include_events`). -/
structure OutputOpts where
  includeHistory : Bool
  includeEvents : Bool
deriving DecidableEq, Repr

/-- The `simulation` section of a raw configuration; absent keys are
`none` (`dict.get` semantics). -/
structure SimSection where
  duration : Option ℚ
  randomSeed : Option Int
  executionMode : Option String
  speedMultiplier : Option ℚ
deriving DecidableEq, Repr

/-- One device entry of a raw configuration (`DeviceConfig`).  `id` is
structurally required because every code path indexes `device["id"]`. -/
structure DeviceConf where
  id : String
  devType : Option String
  capacity : Option Int
  recoveryTimeRange : Option (ℚ × ℚ)
  requiredGates : List String
  initialState : Option String
deriving DecidableEq, Repr

/-- One flow entry of a raw configuration (`FlowConfig`).  `dependencies`
models `flow.get("dependencies") or []`, which maps both an absent key
and `None` to the empty list everywhere in the kernel. -/
structure FlowConf where
  flowId : String
  fromDevice : String
  toDevice : String
  processTimeRange : Option (ℚ × ℚ)
  priority : Option Int
  dependencies : List String
  requiredGates : List String
  offsetMode : Option String
  startOffset : Option ℚ
deriving DecidableEq, Repr

/-- A raw configuration dictionary as passed to `ConfigManager`. -/
structure RawConfig where
  simulation : Option SimSection
  devices : Option (List DeviceConf)
  flows : Option (List FlowConf)
  gates : Option (List (String × Bool))
  outputOptions : Option OutputOpts
deriving DecidableEq, Repr

/-- Rule 1 of `ConfigManager.validate`: messages for the missing
required top-level sections, in code order. -/
def missingFieldErrors (config : RawConfig) : List String :=
  (if config.simulation.isNone
   then ["Missing required field: \x27simulation\x27"] else []) ++
  (if config.devices.isNone
   then ["Missing required field: \x27devices\x27"] else []) ++
  (if config.flows.isNone
   then ["Missing required field: \x27flows\x27"] else [])

/-- The `gates` defaulting performed inside `validate`
(`self._config["gates"] = {}` when absent): this mutates the caller's
configuration object. -/
def gatesDefaulted (config : RawConfig) : RawConfig :=
  if config.gates.isNone then { config with gates := some [] } else config

/-- Gate-reference errors for devices and flows (validate, rules after
the gates default). -/
def gateRefErrors (config : RawConfig) : List String :=
  ((config.devices.getD []).flatMap (fun d =>
    (d.requiredGates.filter
      (fun g => g ∉ (config.gates.getD []).map (fun p => p.1))).map
      (fun g => "Device " ++ d.id ++ " requires undefined gate: " ++ g))) ++
  ((config.flows.getD []).flatMap (fun f =>
    (f.requiredGates.filter
      (fun g => g ∉ (config.gates.getD []).map (fun p => p.1))).map
      (fun g => "Flow " ++ f.flowId ++ " requires undefined gate: " ++ g)))

/-- Rules 2 and 3: duplicate device/flow ids. -/
def duplicateIdErrors (config : RawConfig) : List String :=
  (if ((config.devices.getD []).map (fun d => d.id)).Nodup then []
   else ["Duplicate device IDs detected"]) ++
  (if ((config.flows.getD []).map (fun f => f.flowId)).Nodup then []
   else ["Duplicate flow IDs detected"])

/-- Rule 4: unresolved device references of flows. -/
def deviceRefErrors (config : RawConfig) : List String :=
  (config.flows.getD []).flatMap (fun f =>
    (if f.fromDevice ∉ (config.devices.getD []).map (fun d => d.id) then
      ["Flow " ++ f.flowId ++ " references unknown device: " ++ f.fromDevice]
     else []) ++
    (if f.toDevice ∉ (config.devices.getD []).map (fun d => d.id) then
      ["Flow " ++ f.flowId ++ " references unknown device: " ++ f.toDevice]
     else []))

/-- Rule 5: `device.get("capacity", 0) < 1`. -/
def capacityErrors (config : RawConfig) : List String :=
  ((config.devices.getD []).filter (fun d => d.capacity.getD 0 < 1)).map
    (fun d => "Device " ++ d.id ++ " has invalid capacity: " ++
      "Capacity must be >= 1")

/-- Rule 6 on flows: process-time ranges need `min ≥ 0` and `max > min`. -/
def flowRangeErrors (config : RawConfig) : List String :=
  (config.flows.getD []).flatMap (fun f =>
    match f.processTimeRange with
    | none => []
    | some (mn, mx) =>
      (if mn < 0 then ["Flow " ++ f.flowId ++ " has negative min time"]
       else []) ++
      (if mx ≤ mn then
        ["Flow " ++ f.flowId ++ " time range must have min < max"]
       else []))

/-- Rule 6 on devices: recovery-time ranges. -/
def recoveryRangeErrors (config : RawConfig) : List String :=
  (config.devices.getD []).flatMap (fun d =>
    match d.recoveryTimeRange with
    | none => []
    | some (mn, mx) =>
      (if mn < 0 then
        ["Device " ++ d.id ++ " has negative recovery min time"] else []) ++
      (if mx ≤ mn then
        ["Device " ++ d.id ++ " recovery range must have min < max"]
       else []))

/-- Rules 7 and 8: seed and duration bounds, with `dict.get` defaults. -/
def simSectionErrors (config : RawConfig) : List String :=
  (if ((config.simulation.getD ⟨none, none, none, none⟩).randomSeed.getD 0)
      < 0 then ["Random seed must be >= 0"] else []) ++
  (if ((config.simulation.getD ⟨none, none, none, none⟩).duration.getD 0)
      ≤ 0 then ["Duration must be > 0"] else [])

/-- Rule 9: unresolved dependency references of flows. -/
def depRefErrors (config : RawConfig) : List String :=
  (config.flows.getD []).flatMap (fun f =>
    (f.dependencies.filter
      (fun dep => dep ∉ (config.flows.getD []).map (fun g => g.flowId))).map
      (fun dep => "Flow " ++ f.flowId ++ " references unknown flow: " ++ dep))

/-- All violations accumulated by the second phase of `validate`, in the
order the code appends them. -/
def phase2Errors (config : RawConfig) : List String :=
  gateRefErrors config ++ duplicateIdErrors config ++
  deviceRefErrors config ++ capacityErrors config ++
  flowRangeErrors config ++ recoveryRangeErrors config ++
  simSectionErrors config ++ depRefErrors config

/-- Python `ConfigManager.validate`: the first component is the outcome
(the typed config, or the accumulated error list carried by the raised
`ValidationError`); the second component is the caller's configuration
object after the call — `validate` stores `gates = {}` into it when the
key is absent, before either raise. -/
def ConfigManager.validate (config : RawConfig) :
    Except (List String) RawConfig × RawConfig :=
  if missingFieldErrors config ≠ [] then
    (.error (missingFieldErrors config), gatesDefaulted config)
  else if phase2Errors (gatesDefaulted config) ≠ [] then
    (.error (phase2Errors (gatesDefaulted config)), gatesDefaulted config)
  else (.ok (gatesDefaulted config), gatesDefaulted config)

/-- C9 counterexample configuration: a fully valid configuration whose
`gates` key is absent. -/
def c9Config : RawConfig :=
  { simulation := some ⟨some 10, some 0, none, none⟩
    devices := some [⟨"devD", none, some 1, none, [], none⟩]
    flows := some []
    gates := none
    outputOptions := some ⟨false, false⟩ }

/-- Counterexample to C9 as stated: validation is not side-effect-free —
even on a configuration it accepts, `validate` writes `gates = {}` into
the caller's configuration object, so the object after the call differs
from the object passed in. -/
theorem validate_mutates_caller_config :
    (ConfigManager.validate c9Config).1 = .ok (gatesDefaulted c9Config) ∧
    (ConfigManager.validate c9Config).2 ≠ c9Config := by
  constructor
  · rfl
  · decide

/-- C9 as amended: `validate` either returns the typed configuration or
fails with the full accumulated list of second-phase violations (when the
required sections are present), and its only effect on the caller's
configuration object is defaulting an absent `gates` key to the empty
map. -/
theorem validate_pure_up_to_gates_default (cfg : RawConfig) :
    (ConfigManager.validate cfg).2 = gatesDefaulted cfg ∧
    (missingFieldErrors cfg = [] →
      ((ConfigManager.validate cfg).1 = .ok (gatesDefaulted cfg) ↔
        phase2Errors (gatesDefaulted cfg) = []) ∧
      (∀ errs, (ConfigManager.validate cfg).1 = .error errs →
        errs = phase2Errors (gatesDefaulted cfg))) := by
  unfold ConfigManager.validate
  by_cases h1 : missingFieldErrors cfg ≠ []
  · rw [if_pos h1]
    exact ⟨rfl, fun h2 => absurd h2 h1⟩
  · rw [if_neg h1]
    by_cases h2 : phase2Errors (gatesDefaulted cfg) ≠ []
    · rw [if_pos h2]
      refine ⟨rfl, fun _ => ⟨?_, ?_⟩⟩
      · constructor
        · intro habs; exact Except.noConfusion habs
        · intro hemp; exact absurd hemp h2
      · intro errs herr
        injection herr with h
        exact h.symm
    · rw [if_neg h2]
      have h2' : phase2Errors (gatesDefaulted cfg) = [] := not_ne_iff.1 h2
      refine ⟨rfl, fun _ => ⟨?_, ?_⟩⟩
      · exact ⟨fun _ => h2', fun _ => rfl⟩
      · intro errs herr; exact Except.noConfusion herr

/-- Witness configuration for C9: two independent violations (capacity
and duration). -/
def c9WConfig : RawConfig :=
  { simulation := some ⟨some 0, some 0, none, none⟩
    devices := some [⟨"devD", none, some 0, none, [], none⟩]
    flows := some []
    gates := some []
    outputOptions := some ⟨false, false⟩ }

/-- Witness for C9 (amended): on a concrete configuration with two
distinct violations the raised error carries both accumulated messages,
not just the first, and the caller's object (whose `gates` key is
present) is returned unchanged. -/
theorem validate_pure_up_to_gates_default_witness :
    (ConfigManager.validate c9WConfig).2 = gatesDefaulted c9WConfig ∧
    (∀ errs, (ConfigManager.validate c9WConfig).1 = .error errs →
      errs = phase2Errors (gatesDefaulted c9WConfig)) ∧
    phase2Errors (gatesDefaulted c9WConfig) =
      ["Device devD has invalid capacity: Capacity must be >= 1",
       "Duration must be > 0"] ∧
    gatesDefaulted c9WConfig = c9WConfig := by
  have h := validate_pure_up_to_gates_default c9WConfig
  exact ⟨h.1, (h.2 (by decide)).2, by decide, by decide⟩

/-- State of `FlowController` (flow_controller.py): the flow dictionary
(insertion-ordered, keyed by `flow_id`), the valid device-id set and the
completed/started flow-id sets. -/
structure FlowController where
  flows : List (String × FlowConf)
  devices : List String
  completed : List String
  started : List String
deriving DecidableEq, Repr

/-- Python `{f["flow_id"]: f for f in flows}`. -/
def buildFlowDict (fs : List FlowConf) : List (String × FlowConf) :=
  fs.foldl (fun d f => setA d f.flowId f) []

/-- Device-reference pass of `FlowController._validate`: raises at the
first flow whose `from_device`/`to_device` is unknown. -/
def checkDeviceRefs : List (String × FlowConf) → List String →
    Except String Unit
  | [], _ => .ok ()
  | (fid, f) :: t, devs =>
    if f.fromDevice ∉ devs then
      .error ("Flow " ++ fid ++ " references unknown device: " ++ f.fromDevice)
    else if f.toDevice ∉ devs then
      .error ("Flow " ++ fid ++ " references unknown device: " ++ f.toDevice)
    else checkDeviceRefs t devs

/-- Dependency-reference pass of `FlowController._validate`. -/
def checkDepRefs (allFlows : List (String × FlowConf)) :
    List (String × FlowConf) → Except String Unit
  | [] => .ok ()
  | (fid, f) :: t =>
    match f.dependencies.find? (fun dep => (allFlows.lookup dep).isNone) with
    | some dep =>
      .error ("Flow " ++ fid ++ " references unknown flow dependency: " ++ dep)
    | none => checkDepRefs allFlows t

/-- Dependencies of a flow id in the flow dictionary
(`self._flows[flow_id].get("dependencies") or []`; the lookup cannot miss
on the inputs reaching the cycle check, which runs after the
dependency-reference pass). -/
def depsOf (flows : List (String × FlowConf)) (fid : String) : List String :=
  ((flows.lookup fid).map (fun f => f.dependencies)).getD []

/-- Generic inner loop of `has_cycle` over the dependencies of the
current flow, parametrised by the recursive visit at the remaining fuel
(structural recursion over the dependency list). -/
def depCycleGo
    (visit : List String → List String → String → Bool × List String) :
    List String → List String → List String → Bool × List String
  | visited, _, [] => (false, visited)
  | visited, recSt, dep :: ds =>
    if dep ∉ visited then
      match visit visited recSt dep with
      | (true, v') => (true, v')
      | (false, v') => depCycleGo visit v' recSt ds
    else if dep ∈ recSt then (true, visited)
    else depCycleGo visit visited recSt ds

/-- DFS of `has_cycle` in `_check_circular_dependencies`: `visited` is
the shared visited set, `recSt` the recursion-stack set.  Fuel bounds the
recursion depth; the top-level caller supplies more fuel than the number
of flows, which suffices because every recursive call pushes a previously
unvisited flow id.  On fuel exhaustion the result is `(false, visited)`,
so a `true` answer always comes from an actual back edge. -/
def depCycleVisit (flows : List (String × FlowConf)) :
    Nat → List String → List String → String → Bool × List String
  | 0, visited, _, _ => (false, visited)
  | fuel + 1, visited, recSt, node =>
    depCycleGo (depCycleVisit flows fuel) (node :: visited) (node :: recSt)
      (depsOf flows node)

/-- Loop of `has_cycle` over the dependencies of the current flow (the
instantiated inner loop). -/
def depCycleDeps (flows : List (String × FlowConf)) (fuel : Nat)
    (visited recSt deps : List String) : Bool × List String :=
  depCycleGo (depCycleVisit flows fuel) visited recSt deps

theorem depCycleDeps_nil (flows : List (String × FlowConf)) (fuel : Nat)
    (visited recSt : List String) :
    depCycleDeps flows fuel visited recSt [] = (false, visited) := rfl

theorem depCycleDeps_cons (flows : List (String × FlowConf)) (fuel : Nat)
    (visited recSt : List String) (dep : String) (ds : List String) :
    depCycleDeps flows fuel visited recSt (dep :: ds) =
      (if dep ∉ visited then
        match depCycleVisit flows fuel visited recSt dep with
        | (true, v') => (true, v')
        | (false, v') => depCycleDeps flows fuel v' recSt ds
      else if dep ∈ recSt then (true, visited)
      else depCycleDeps flows fuel visited recSt ds) := rfl

/-- Outer loop of `_check_circular_dependencies` over the flow ids in
dictionary order: returns the first flow id from which the DFS reports a
cycle. -/
def depCycleLoop (flows : List (String × FlowConf)) (fuel : Nat)
    (visited : List String) : List String → Option String
  | [] => none
  | k :: ks =>
    if k ∉ visited then
      match depCycleVisit flows fuel visited [] k with
      | (true, _) => some k
      | (false, v') => depCycleLoop flows fuel v' ks
    else depCycleLoop flows fuel visited ks

/-- Python `FlowController._check_circular_dependencies`. -/
def checkCircularDependencies (flows : List (String × FlowConf)) :
    Except String Unit :=
  match depCycleLoop flows (flows.length + 1) [] (flows.map (fun p => p.1)) with
  | some fid => .error ("Circular dependency detected involving " ++ fid)
  | none => .ok ()

/-- Python `FlowController.__init__` with `_validate`: device references,
dependency references, then cycle detection; any failure raises. -/
def FlowController.init (flowList : List FlowConf) (devices : List String) :
    Except String FlowController :=
  match checkDeviceRefs (buildFlowDict flowList) devices with
  | .error e => .error e
  | .ok _ =>
    match checkDepRefs (buildFlowDict flowList) (buildFlowDict flowList) with
    | .error e => .error e
    | .ok _ =>
      match checkCircularDependencies (buildFlowDict flowList) with
      | .error e => .error e
      | .ok _ => .ok ⟨buildFlowDict flowList, devices, [], []⟩

/-- Python `FlowController.is_completed`. -/
def FlowController.isCompleted (fc : FlowController) (fid : String) : Bool :=
  fc.completed.contains fid

/-- Python `FlowController.mark_completed` (set add). -/
def FlowController.markCompleted (fc : FlowController) (fid : String) :
    FlowController :=
  { fc with completed := addFlow fc.completed fid }

/-- Python `FlowController.mark_started` (set add). -/
def FlowController.markStarted (fc : FlowController) (fid : String) :
    FlowController :=
  { fc with started := addFlow fc.started fid }

/-- Python `FlowController.is_started`. -/
def FlowController.isStarted (fc : FlowController) (fid : String) : Bool :=
  fc.started.contains fid

/-- Dependency-graph edge over the flow dictionary: flow `x` depends on
flow `y`. -/
def depEdge (flows : List (String × FlowConf)) (x y : String) : Prop :=
  y ∈ depsOf flows x

/-- Flow ids of the dictionary, in order. -/
def flowKeys (flows : List (String × FlowConf)) : List String :=
  flows.map (fun p => p.1)

/-- Existence of a dependency cycle in the flow dependency graph. -/
def HasDepCycle (flows : List (String × FlowConf)) : Prop :=
  ∃ x, Relation.TransGen (depEdge flows) x x

/-- No cycle is reachable from `x` along dependency edges. -/
def NRC (flows : List (String × FlowConf)) (x : String) : Prop :=
  ¬ ∃ c, Relation.ReflTransGen (depEdge flows) x c ∧
    Relation.TransGen (depEdge flows) c c

/-- Every fully-explored (black) node of the visited set — visited but
not on the recursion stack — reaches no cycle. -/
def BlackSafe (flows : List (String × FlowConf)) (v recSt : List String) :
    Prop :=
  ∀ x ∈ v, x ∉ recSt → NRC flows x

theorem lookup_some_mem {β : Type} {l : List (String × β)} {k : String}
    {v : β} (h : l.lookup k = some v) : (k, v) ∈ l := by
  induction l with
  | nil => cases h
  | cons p t ih =>
    obtain ⟨k', v'⟩ := p
    rw [List.lookup] at h
    by_cases hk : k = k'
    · subst hk
      simp only [beq_self_eq_true] at h
      injection h with h
      subst h
      exact List.mem_cons_self _ _
    · have hb : (k == k') = false := by simp [beq_iff_eq, hk]
      rw [hb] at h
      exact List.mem_cons_of_mem _ (ih h)

theorem lookup_isSome_of_mem_keys {β : Type} {l : List (String × β)}
    {k : String} (h : k ∈ l.map (fun p => p.1)) : (l.lookup k).isSome := by
  induction l with
  | nil => cases h
  | cons p t ih =>
    obtain ⟨k', v'⟩ := p
    rw [List.lookup]
    by_cases hk : k = k'
    · subst hk; simp
    · have hb : (k == k') = false := by simp [beq_iff_eq, hk]
      rw [hb]
      rcases List.mem_cons.1 h with he | ht
      · exact absurd he hk
      · exact ih ht

theorem mem_flowKeys_of_dep {flows : List (String × FlowConf)}
    {x d : String} (h : d ∈ depsOf flows x) : x ∈ flowKeys flows := by
  rw [depsOf] at h
  rcases hl : flows.lookup x with _ | f
  · rw [hl] at h; cases h
  · exact List.mem_map.2 ⟨(x, f), lookup_some_mem hl, rfl⟩

theorem chain_reaches (flows : List (String × FlowConf)) :
    ∀ (l : List String) (hne : l ≠ []) (x : String),
    List.Chain' (fun a b => depEdge flows b a) l → x ∈ l →
    Relation.ReflTransGen (depEdge flows) x (l.head hne) := by
  intro l
  induction l with
  | nil => intro hne; exact absurd rfl hne
  | cons a t ih =>
    intro _ x hch hx
    rcases List.mem_cons.1 hx with rfl | hxt
    · exact Relation.ReflTransGen.refl
    · cases t with
      | nil => cases hxt
      | cons b t' =>
        have hr : depEdge flows b a := (List.chain'_cons.1 hch).1
        have := ih (by simp) x (List.chain'_cons.1 hch).2 hxt
        exact Relation.ReflTransGen.tail this hr

/-- Soundness of the dependency-cycle DFS: a `true` answer always
exhibits a cycle reachable from the starting node (given that the
recursion stack is an edge chain ending at the current node). -/
theorem depCycle_sound (flows : List (String × FlowConf)) : ∀ fuel : Nat,
    (∀ v recSt node,
      List.Chain' (fun a b => depEdge flows b a) (node :: recSt) →
      (depCycleVisit flows fuel v recSt node).1 = true →
      ∃ c, Relation.ReflTransGen (depEdge flows) node c ∧
        Relation.TransGen (depEdge flows) c c) ∧
    (∀ v recSt deps cur rest',
      recSt = cur :: rest' →
      List.Chain' (fun a b => depEdge flows b a) recSt →
      (∀ d ∈ deps, depEdge flows cur d) →
      (depCycleDeps flows fuel v recSt deps).1 = true →
      ∃ c, Relation.ReflTransGen (depEdge flows) cur c ∧
        Relation.TransGen (depEdge flows) c c) := by
  have hdeps : ∀ fuel : Nat,
      (∀ v recSt node,
        List.Chain' (fun a b => depEdge flows b a) (node :: recSt) →
        (depCycleVisit flows fuel v recSt node).1 = true →
        ∃ c, Relation.ReflTransGen (depEdge flows) node c ∧
          Relation.TransGen (depEdge flows) c c) →
      (∀ v recSt deps cur rest',
        recSt = cur :: rest' →
        List.Chain' (fun a b => depEdge flows b a) recSt →
        (∀ d ∈ deps, depEdge flows cur d) →
        (depCycleDeps flows fuel v recSt deps).1 = true →
        ∃ c, Relation.ReflTransGen (depEdge flows) cur c ∧
          Relation.TransGen (depEdge flows) c c) := by
    intro fuel hvs v recSt deps
    induction deps generalizing v with
    | nil =>
      intro cur rest' _ _ _ hres
      rw [depCycleDeps_nil] at hres
      cases hres
    | cons dep ds ih =>
      intro cur rest' hrs hch hd hres
      subst hrs
      rw [depCycleDeps_cons] at hres
      by_cases h1 : dep ∉ v
      · rw [if_pos h1] at hres
        rcases hv : depCycleVisit flows fuel v (cur :: rest') dep with ⟨b, v'⟩
        rw [hv] at hres
        cases b with
        | true =>
          have hch' : List.Chain' (fun a b => depEdge flows b a)
              (dep :: cur :: rest') :=
            List.chain'_cons.2 ⟨hd dep (List.mem_cons_self _ _), hch⟩
          obtain ⟨c, hrc, hcy⟩ := hvs v (cur :: rest') dep hch' (by rw [hv])
          exact ⟨c, Relation.ReflTransGen.head
            (hd dep (List.mem_cons_self _ _)) hrc, hcy⟩
        | false =>
          have hres' : (depCycleDeps flows fuel v' (cur :: rest') ds).1 =
            true := hres
          exact ih v' cur rest' rfl hch
            (fun d hdm => hd d (List.mem_cons_of_mem _ hdm)) hres'
      · rw [if_neg h1] at hres
        by_cases h2 : dep ∈ cur :: rest'
        · have hreach : Relation.ReflTransGen (depEdge flows) dep cur :=
            chain_reaches flows (cur :: rest') (by simp) dep hch h2
          exact ⟨cur, Relation.ReflTransGen.refl,
            Relation.TransGen.head' (hd dep (List.mem_cons_self _ _)) hreach⟩
        · rw [if_neg h2] at hres
          exact ih v cur rest' rfl hch
            (fun d hdm => hd d (List.mem_cons_of_mem _ hdm)) hres
  intro fuel
  induction fuel with
  | zero =>
    constructor
    · intro v recSt node _ hres
      rw [depCycleVisit] at hres
      cases hres
    · exact hdeps 0 (by
        intro v recSt node _ hres
        rw [depCycleVisit] at hres
        cases hres)
  | succ fuel ih =>
    have hv : ∀ v recSt node,
        List.Chain' (fun a b => depEdge flows b a) (node :: recSt) →
        (depCycleVisit flows (fuel + 1) v recSt node).1 = true →
        ∃ c, Relation.ReflTransGen (depEdge flows) node c ∧
          Relation.TransGen (depEdge flows) c c := by
      intro v recSt node hch hres
      rw [depCycleVisit] at hres
      exact hdeps fuel ih.1 (node :: v) (node :: recSt) (depsOf flows node)
        node recSt rfl hch (fun d hd => hd) hres
    exact ⟨hv, hdeps (fuel + 1) hv⟩

theorem nodup_subset_length_le {v w : List String} (hnd : v.Nodup)
    (hsub : v ⊆ w) : v.length ≤ w.length :=
  (List.subperm_of_subset hnd hsub).length_le

/-- Completeness invariants of the dependency-cycle DFS: the visited set
only grows, stays inside the key set and duplicate-free, and — on a
`false` answer — every newly black node reaches no cycle, with all
dependencies of the current node fully explored and off the stack.  The
fuel hypothesis makes fuel exhaustion unreachable. -/
theorem depCycle_complete (flows : List (String × FlowConf))
    (hclosed : ∀ x d, d ∈ depsOf flows x → d ∈ flowKeys flows) :
    ∀ fuel : Nat,
    (∀ v recSt node b vOut,
      depCycleVisit flows fuel v recSt node = (b, vOut) →
      node ∈ flowKeys flows → node ∉ v →
      v ⊆ flowKeys flows → v.Nodup → recSt ⊆ v →
      (flowKeys flows).length < fuel + v.length →
      v ⊆ vOut ∧ node ∈ vOut ∧ vOut ⊆ flowKeys flows ∧ vOut.Nodup ∧
        (b = false → BlackSafe flows v recSt →
          BlackSafe flows vOut recSt)) ∧
    (∀ v recSt deps cur b vOut,
      depCycleDeps flows fuel v recSt deps = (b, vOut) →
      (∀ d ∈ deps, d ∈ depsOf flows cur) →
      v ⊆ flowKeys flows → v.Nodup → recSt ⊆ v →
      (flowKeys flows).length < fuel + v.length →
      v ⊆ vOut ∧ vOut ⊆ flowKeys flows ∧ vOut.Nodup ∧
        (b = false →
          (BlackSafe flows v recSt → BlackSafe flows vOut recSt) ∧
          (∀ d ∈ deps, d ∈ vOut ∧ d ∉ recSt))) := by
  intro fuel
  induction fuel with
  | zero =>
    constructor
    · intro v recSt node b vOut _ hnode hnv hv hnd _ hfuel
      exfalso
      have hsub : (node :: v) ⊆ flowKeys flows := by
        intro x hx
        rcases List.mem_cons.1 hx with rfl | hx
        · exact hnode
        · exact hv hx
      have := nodup_subset_length_le (List.nodup_cons.2 ⟨hnv, hnd⟩) hsub
      simp only [List.length_cons] at this
      omega
    · intro v recSt deps cur b vOut h hd hv hnd hrv hfuel
      induction deps generalizing v b vOut with
      | nil =>
        rw [depCycleDeps_nil] at h
        injection h with h1 h2
        subst h1; subst h2
        exact ⟨fun x hx => hx, hv, hnd, fun _ =>
          ⟨fun hs => hs, fun d hdm => absurd hdm (List.not_mem_nil d)⟩⟩
      | cons dep ds ih =>
        rw [depCycleDeps_cons] at h
        by_cases h1 : dep ∉ v
        · rw [if_pos h1] at h
          rcases hvv : depCycleVisit flows 0 v recSt dep with ⟨bc, vc⟩
          rw [hvv] at h
          exfalso
          rw [depCycleVisit] at hvv
          injection hvv with hb hvc
          subst hb; subst hvc
          have hdk : dep ∈ flowKeys flows :=
            hclosed cur dep (hd dep (List.mem_cons_self _ _))
          have hsub : (dep :: v) ⊆ flowKeys flows := by
            intro x hx
            rcases List.mem_cons.1 hx with rfl | hx
            · exact hdk
            · exact hv hx
          have := nodup_subset_length_le (List.nodup_cons.2 ⟨h1, hnd⟩) hsub
          simp only [List.length_cons] at this
          omega
        · rw [if_neg h1] at h
          have hdv : dep ∈ v := not_not.1 h1
          by_cases h2 : dep ∈ recSt
          · rw [if_pos h2] at h
            injection h with hb hvo
            subst hb; subst hvo
            exact ⟨fun x hx => hx, hv, hnd, fun hfalse => by cases hfalse⟩
          · rw [if_neg h2] at h
            obtain ⟨hs1, hs2, hs3, hs4⟩ := ih v b vOut h
              (fun d hdm => hd d (List.mem_cons_of_mem _ hdm)) hv hnd hrv
              hfuel
            refine ⟨hs1, hs2, hs3, fun hb => ?_⟩
            obtain ⟨hbs, hdall⟩ := hs4 hb
            refine ⟨hbs, fun d hdm => ?_⟩
            rcases List.mem_cons.1 hdm with rfl | hdm
            · exact ⟨hs1 hdv, h2⟩
            · exact hdall d hdm
  | succ fuel ihf =>
    have hP : ∀ v recSt node b vOut,
        depCycleVisit flows (fuel + 1) v recSt node = (b, vOut) →
        node ∈ flowKeys flows → node ∉ v →
        v ⊆ flowKeys flows → v.Nodup → recSt ⊆ v →
        (flowKeys flows).length < (fuel + 1) + v.length →
        v ⊆ vOut ∧ node ∈ vOut ∧ vOut ⊆ flowKeys flows ∧ vOut.Nodup ∧
          (b = false → BlackSafe flows v recSt →
            BlackSafe flows vOut recSt) := by
      intro v recSt node b vOut h hnode hnv hv hnd hrv hfuel
      rw [depCycleVisit] at h
      have hv1 : (node :: v) ⊆ flowKeys flows := by
        intro x hx
        rcases List.mem_cons.1 hx with rfl | hx
        · exact hnode
        · exact hv hx
      have hnd1 : (node :: v).Nodup := List.nodup_cons.2 ⟨hnv, hnd⟩
      have hrv1 : (node :: recSt) ⊆ (node :: v) := by
        intro x hx
        rcases List.mem_cons.1 hx with rfl | hx
        · exact List.mem_cons_self _ _
        · exact List.mem_cons_of_mem _ (hrv hx)
      have hfuel1 : (flowKeys flows).length < fuel + (node :: v).length := by
        simp only [List.length_cons]
        omega
      obtain ⟨hs1, hs2, hs3, hs4⟩ := ihf.2 (node :: v) (node :: recSt)
        (depsOf flows node) node b vOut h (fun d hd => hd) hv1 hnd1 hrv1
        hfuel1
      have hsubv : v ⊆ vOut := fun x hx => hs1 (List.mem_cons_of_mem _ hx)
      have hnodev : node ∈ vOut := hs1 (List.mem_cons_self _ _)
      refine ⟨hsubv, hnodev, hs2, hs3, fun hb hsafe => ?_⟩
      obtain ⟨hbs, hdall⟩ := hs4 hb
      have hsafe1 : BlackSafe flows (node :: v) (node :: recSt) := by
        intro x hx hxr
        rcases List.mem_cons.1 hx with rfl | hx
        · exact absurd (List.mem_cons_self _ _) hxr
        · exact hsafe x hx (fun hc => hxr (List.mem_cons_of_mem _ hc))
      have hsafeOut : BlackSafe flows vOut (node :: recSt) := hbs hsafe1
      have hnrcNode : NRC flows node := by
        rintro ⟨c, hreach, hcyc⟩
        rcases Relation.ReflTransGen.cases_head hreach with rfl | ⟨b', hb', hr'⟩
        · obtain ⟨b', hb', hr'⟩ := Relation.TransGen.head'_iff.1 hcyc
          obtain ⟨hbin, hbno⟩ := hdall b' hb'
          exact hsafeOut b' hbin hbno ⟨node, hr', hcyc⟩
        · obtain ⟨hbin, hbno⟩ := hdall b' hb'
          exact hsafeOut b' hbin hbno ⟨c, hr', hcyc⟩
      intro x hx hxr
      by_cases hxn : x = node
      · subst hxn; exact hnrcNode
      · exact hsafeOut x hx (by
          intro hc
          rcases List.mem_cons.1 hc with he | hc
          · exact hxn he
          · exact hxr hc)
    refine ⟨hP, ?_⟩
    intro v recSt deps cur b vOut h hd hv hnd hrv hfuel
    induction deps generalizing v b vOut with
    | nil =>
      rw [depCycleDeps_nil] at h
      injection h with h1 h2
      subst h1; subst h2
      exact ⟨fun x hx => hx, hv, hnd, fun _ =>
        ⟨fun hs => hs, fun d hdm => absurd hdm (List.not_mem_nil d)⟩⟩
    | cons dep ds ih =>
      rw [depCycleDeps_cons] at h
      by_cases h1 : dep ∉ v
      · rw [if_pos h1] at h
        rcases hvv : depCycleVisit flows (fuel + 1) v recSt dep with ⟨bc, vc⟩
        rw [hvv] at h
        have hdk : dep ∈ flowKeys flows :=
          hclosed cur dep (hd dep (List.mem_cons_self _ _))
        obtain ⟨hc1, hc2, hc3, hc4, hc5⟩ := hP v recSt dep bc vc hvv hdk h1
          hv hnd hrv hfuel
        cases bc with
        | true =>
          injection h with hb hvo
          subst hb; subst hvo
          exact ⟨hc1, hc3, hc4, fun hfalse => by cases hfalse⟩
        | false =>
          have h' : depCycleDeps flows (fuel + 1) vc recSt ds = (b, vOut) := h
          have hrvc : recSt ⊆ vc := fun x hx => hc1 (hrv hx)
          have hfuelc : (flowKeys flows).length < (fuel + 1) + vc.length := by
            have := nodup_subset_length_le hnd hc1
            omega
          obtain ⟨hs1, hs2, hs3, hs4⟩ := ih vc b vOut h'
            (fun d hdm => hd d (List.mem_cons_of_mem _ hdm)) hc3 hc4 hrvc
            hfuelc
          refine ⟨fun x hx => hs1 (hc1 hx), hs2, hs3, fun hb' => ?_⟩
          obtain ⟨hbs, hdall⟩ := hs4 hb'
          refine ⟨fun hsafe => hbs (hc5 rfl hsafe), fun d hdm => ?_⟩
          rcases List.mem_cons.1 hdm with rfl | hdm
          · refine ⟨hs1 hc2, fun hc => ?_⟩
            exact h1 (hrv hc)
          · exact hdall d hdm
      · rw [if_neg h1] at h
        have hdv : dep ∈ v := not_not.1 h1
        by_cases h2 : dep ∈ recSt
        · rw [if_pos h2] at h
          injection h with hb hvo
          subst hb; subst hvo
          exact ⟨fun x hx => hx, hv, hnd, fun hfalse => by cases hfalse⟩
        · rw [if_neg h2] at h
          obtain ⟨hs1, hs2, hs3, hs4⟩ := ih v b vOut h
            (fun d hdm => hd d (List.mem_cons_of_mem _ hdm)) hv hnd hrv hfuel
          refine ⟨hs1, hs2, hs3, fun hb => ?_⟩
          obtain ⟨hbs, hdall⟩ := hs4 hb
          refine ⟨hbs, fun d hdm => ?_⟩
          rcases List.mem_cons.1 hdm with rfl | hdm
          · exact ⟨hs1 hdv, h2⟩
          · exact hdall d hdm

theorem depCycleLoop_none (flows : List (String × FlowConf))
    (hclosed : ∀ x d, d ∈ depsOf flows x → d ∈ flowKeys flows) :
    ∀ ks v, ks ⊆ flowKeys flows → v ⊆ flowKeys flows → v.Nodup →
    BlackSafe flows v [] →
    depCycleLoop flows (flows.length + 1) v ks = none →
    ∀ k ∈ ks, NRC flows k := by
  intro ks
  induction ks with
  | nil => intro v _ _ _ _ _ k hk; cases hk
  | cons k rest ih =>
    intro v hks hv hnd hsafe hloop
    rw [depCycleLoop] at hloop
    by_cases hk1 : k ∉ v
    · rw [if_pos hk1] at hloop
      rcases hvv : depCycleVisit flows (flows.length + 1) v [] k with ⟨bc, vc⟩
      rw [hvv] at hloop
      cases bc with
      | true => cases hloop
      | false =>
        have hloop' : depCycleLoop flows (flows.length + 1) vc rest = none :=
          hloop
        have hkk : k ∈ flowKeys flows := hks (List.mem_cons_self _ _)
        have hfuel : (flowKeys flows).length < (flows.length + 1) + v.length := by
          have : (flowKeys flows).length = flows.length := List.length_map _ _
          omega
        obtain ⟨hc1, hc2, hc3, hc4, hc5⟩ :=
          (depCycle_complete flows hclosed (flows.length + 1)).1 v [] k false
            vc hvv hkk hk1 hv hnd (by intro x hx; cases hx) hfuel
        have hsafec : BlackSafe flows vc [] := hc5 rfl hsafe
        intro k' hk'
        rcases List.mem_cons.1 hk' with rfl | hk'
        · exact hsafec k' hc2 (by intro hx; cases hx)
        · exact ih vc (fun x hx => hks (List.mem_cons_of_mem _ hx)) hc3 hc4
            hsafec hloop' k' hk'
    · rw [if_neg hk1] at hloop
      have hkv : k ∈ v := not_not.1 hk1
      intro k' hk'
      rcases List.mem_cons.1 hk' with rfl | hk'
      · exact hsafe k' hkv (by intro hx; cases hx)
      · exact ih v (fun x hx => hks (List.mem_cons_of_mem _ hx)) hv hnd
          hsafe hloop k' hk'

theorem depCycleLoop_some (flows : List (String × FlowConf)) (fuel : Nat) :
    ∀ ks v fid, depCycleLoop flows fuel v ks = some fid →
    fid ∈ ks ∧ ∃ c, Relation.ReflTransGen (depEdge flows) fid c ∧
      Relation.TransGen (depEdge flows) c c := by
  intro ks
  induction ks with
  | nil => intro v fid h; cases h
  | cons k rest ih =>
    intro v fid h
    rw [depCycleLoop] at h
    by_cases hk1 : k ∉ v
    · rw [if_pos hk1] at h
      rcases hvv : depCycleVisit flows fuel v [] k with ⟨bc, vc⟩
      rw [hvv] at h
      cases bc with
      | true =>
        obtain rfl : k = fid := by injection h
        obtain ⟨c, hrc, hcy⟩ := (depCycle_sound flows fuel).1 v [] k
          (List.chain'_singleton _) (by rw [hvv])
        exact ⟨List.mem_cons_self _ _, c, hrc, hcy⟩
      | false =>
        have h' : depCycleLoop flows fuel vc rest = some fid := h
        obtain ⟨hmem, hc⟩ := ih vc fid h'
        exact ⟨List.mem_cons_of_mem _ hmem, hc⟩
    · rw [if_neg hk1] at h
      obtain ⟨hmem, hc⟩ := ih v fid h
      exact ⟨List.mem_cons_of_mem _ hmem, hc⟩

theorem setA_append_of_not_mem {β : Type} :
    ∀ (l : List (String × β)) (k : String) (v : β),
    (∀ p ∈ l, p.1 ≠ k) → setA l k v = l ++ [(k, v)] := by
  intro l k v h
  induction l with
  | nil => rfl
  | cons p t ih =>
    obtain ⟨k', v'⟩ := p
    rw [setA]
    rw [if_neg (h (k', v') (List.mem_cons_self _ _))]
    rw [ih (fun q hq => h q (List.mem_cons_of_mem _ hq))]
    rfl

theorem buildFlowDict_go (fs : List FlowConf) :
    ∀ acc : List (String × FlowConf),
    (∀ f ∈ fs, ∀ p ∈ acc, p.1 ≠ f.flowId) →
    (fs.map (fun f => f.flowId)).Nodup →
    fs.foldl (fun d f => setA d f.flowId f) acc =
      acc ++ fs.map (fun f => (f.flowId, f)) := by
  induction fs with
  | nil => intro acc _ _; simp
  | cons f rest ih =>
    intro acc hacc hnd
    rw [List.foldl_cons]
    rw [setA_append_of_not_mem acc f.flowId f
      (fun p hp => hacc f (List.mem_cons_self _ _) p hp)]
    rw [ih (acc ++ [(f.flowId, f)]) ?_ (List.nodup_cons.1 (by simpa using hnd)).2]
    · simp
    · intro g hg p hp
      rcases List.mem_append.1 hp with hp | hp
      · exact hacc g (List.mem_cons_of_mem _ hg) p hp
      · simp only [List.mem_singleton] at hp
        subst hp
        intro he
        have : f.flowId ∈ rest.map (fun f => f.flowId) :=
          List.mem_map.2 ⟨g, hg, he.symm⟩
        exact (List.nodup_cons.1 (by simpa using hnd)).1 this

theorem buildFlowDict_eq (fs : List FlowConf)
    (h : (fs.map (fun f => f.flowId)).Nodup) :
    buildFlowDict fs = fs.map (fun f => (f.flowId, f)) := by
  rw [buildFlowDict, buildFlowDict_go fs [] (fun _ _ p hp => absurd hp
    (List.not_mem_nil p)) h]
  rfl

theorem checkDeviceRefs_ok (devs : List String) :
    ∀ l : List (String × FlowConf),
    (∀ p ∈ l, p.2.fromDevice ∈ devs ∧ p.2.toDevice ∈ devs) →
    checkDeviceRefs l devs = .ok () := by
  intro l h
  induction l with
  | nil => rfl
  | cons p t ih =>
    obtain ⟨k, f⟩ := p
    rw [checkDeviceRefs]
    rw [if_neg (not_not_intro (h (k, f) (List.mem_cons_self _ _)).1)]
    rw [if_neg (not_not_intro (h (k, f) (List.mem_cons_self _ _)).2)]
    exact ih (fun q hq => h q (List.mem_cons_of_mem _ hq))

theorem checkDepRefs_ok (allFlows : List (String × FlowConf)) :
    ∀ l : List (String × FlowConf),
    (∀ p ∈ l, ∀ dep ∈ p.2.dependencies, (allFlows.lookup dep).isSome) →
    checkDepRefs allFlows l = .ok () := by
  intro l h
  induction l with
  | nil => rfl
  | cons p t ih =>
    obtain ⟨k, f⟩ := p
    rw [checkDepRefs]
    have hfind : f.dependencies.find?
        (fun dep => (allFlows.lookup dep).isNone) = none := by
      rw [List.find?_eq_none]
      intro dep hdep
      have hs := h (k, f) (List.mem_cons_self _ _) dep hdep
      rcases hl : allFlows.lookup dep with _ | vv
      · rw [hl] at hs; simp at hs
      · simp
    rw [hfind]
    exact ih (fun q hq => h q (List.mem_cons_of_mem _ hq))

/-- C7: for every flow configuration with unique flow ids and resolvable
device/dependency references, construction of the Flow Controller fails
with the circular-dependency error naming an implicated flow — one from
which a dependency cycle is reachable — exactly when the dependency graph
contains a cycle; on acyclic input construction succeeds, returning the
controller. -/
theorem flow_controller_cycle_rejection
    (flowList : List FlowConf) (devices : List String)
    (hids : (flowList.map (fun f => f.flowId)).Nodup)
    (hdev : ∀ f ∈ flowList, f.fromDevice ∈ devices ∧ f.toDevice ∈ devices)
    (hdep : ∀ f ∈ flowList, ∀ d ∈ f.dependencies,
      d ∈ flowList.map (fun g => g.flowId)) :
    (HasDepCycle (buildFlowDict flowList) →
      ∃ fid, FlowController.init flowList devices =
        .error ("Circular dependency detected involving " ++ fid) ∧
        fid ∈ flowList.map (fun f => f.flowId) ∧
        ∃ c, Relation.ReflTransGen (depEdge (buildFlowDict flowList)) fid c ∧
          Relation.TransGen (depEdge (buildFlowDict flowList)) c c) ∧
    (¬ HasDepCycle (buildFlowDict flowList) →
      FlowController.init flowList devices =
        .ok ⟨buildFlowDict flowList, devices, [], []⟩) := by
  have hdict := buildFlowDict_eq flowList hids
  have hkeys : flowKeys (buildFlowDict flowList) =
      flowList.map (fun f => f.flowId) := by
    rw [flowKeys, hdict, List.map_map]
    rfl
  have hmemdict : ∀ p ∈ buildFlowDict flowList,
      p.2 ∈ flowList ∧ p.1 = p.2.flowId := by
    intro p hp
    rw [hdict] at hp
    obtain ⟨f, hf, rfl⟩ := List.mem_map.1 hp
    exact ⟨hf, rfl⟩
  have h1 : checkDeviceRefs (buildFlowDict flowList) devices = .ok () := by
    apply checkDeviceRefs_ok
    intro p hp
    exact hdev p.2 (hmemdict p hp).1
  have h2 : checkDepRefs (buildFlowDict flowList) (buildFlowDict flowList) =
      .ok () := by
    apply checkDepRefs_ok
    intro p hp dep hdepm
    have hin : dep ∈ flowList.map (fun g => g.flowId) :=
      hdep p.2 (hmemdict p hp).1 dep hdepm
    apply lookup_isSome_of_mem_keys
    show dep ∈ flowKeys (buildFlowDict flowList)
    rw [hkeys]
    exact hin
  have hclosed : ∀ x d, d ∈ depsOf (buildFlowDict flowList) x →
      d ∈ flowKeys (buildFlowDict flowList) := by
    intro x d hd
    rw [depsOf] at hd
    rcases hl : (buildFlowDict flowList).lookup x with _ | f
    · rw [hl] at hd; cases hd
    · rw [hl] at hd
      have hd' : d ∈ f.dependencies := hd
      have hm := lookup_some_mem hl
      rw [hkeys]
      exact hdep f (hmemdict (x, f) hm).1 d hd'
  constructor
  · intro hcyc
    rcases hloop : depCycleLoop (buildFlowDict flowList)
        ((buildFlowDict flowList).length + 1) []
        ((buildFlowDict flowList).map (fun p => p.1)) with _ | fid
    · exfalso
      obtain ⟨x, hx⟩ := hcyc
      have hxk : x ∈ flowKeys (buildFlowDict flowList) := by
        obtain ⟨b, hxb, _⟩ := Relation.TransGen.head'_iff.1 hx
        exact mem_flowKeys_of_dep hxb
      have hks0 : (buildFlowDict flowList).map (fun p => p.1) ⊆
          flowKeys (buildFlowDict flowList) := by
        rw [flowKeys]
        exact fun {a} ha => ha
      have hv0 : ([] : List String) ⊆ flowKeys (buildFlowDict flowList) := by
        intro a ha
        exact absurd ha (List.not_mem_nil a)
      have hxk' : x ∈ (buildFlowDict flowList).map (fun p => p.1) := by
        rw [flowKeys] at hxk
        exact hxk
      have hnrc := depCycleLoop_none (buildFlowDict flowList) hclosed
        ((buildFlowDict flowList).map (fun p => p.1)) []
        hks0 hv0 List.nodup_nil
        (fun x hx _ => absurd hx (List.not_mem_nil x))
        hloop x hxk' 
      exact hnrc ⟨x, Relation.ReflTransGen.refl, hx⟩
    · obtain ⟨hmem, c, hrc, hcy⟩ :=
        depCycleLoop_some (buildFlowDict flowList) _ _ _ _ hloop
      refine ⟨fid, ?_, ?_, ⟨c, hrc, hcy⟩⟩
      · have h3 : checkCircularDependencies (buildFlowDict flowList) =
            .error ("Circular dependency detected involving " ++ fid) := by
          rw [checkCircularDependencies, hloop]
        simp only [FlowController.init, h1, h2, h3]
      · rw [← hkeys]
        exact hmem
  · intro hnocyc
    rcases hloop : depCycleLoop (buildFlowDict flowList)
        ((buildFlowDict flowList).length + 1) []
        ((buildFlowDict flowList).map (fun p => p.1)) with _ | fid
    · have h3 : checkCircularDependencies (buildFlowDict flowList) =
          .ok () := by
        rw [checkCircularDependencies, hloop]
      simp only [FlowController.init, h1, h2, h3]
    · exfalso
      obtain ⟨_, c, _, hcy⟩ :=
        depCycleLoop_some (buildFlowDict flowList) _ _ _ _ hloop
      exact hnocyc ⟨c, hcy⟩

/-- Witness flow list for C7: flow A depends on B and B depends on A. -/
def c7Flows : List FlowConf :=
  [⟨"flowA", "devA", "devB", none, none, ["flowB"], [], none, none⟩,
   ⟨"flowB", "devB", "devA", none, none, ["flowA"], [], none, none⟩]

/-- Witness for C7: the two mutually dependent flows make construction
fail with the circular-dependency error, concretely naming `flowA`. -/
theorem flow_controller_cycle_rejection_witness :
    (∃ fid, FlowController.init c7Flows ["devA", "devB"] =
        .error ("Circular dependency detected involving " ++ fid) ∧
        fid ∈ c7Flows.map (fun f => f.flowId) ∧
        ∃ c, Relation.ReflTransGen (depEdge (buildFlowDict c7Flows)) fid c ∧
          Relation.TransGen (depEdge (buildFlowDict c7Flows)) c c) ∧
    FlowController.init c7Flows ["devA", "devB"] =
      .error "Circular dependency detected involving flowA" := by
  constructor
  · apply (flow_controller_cycle_rejection c7Flows ["devA", "devB"]
      (by decide) (by decide) (by decide)).1
    have e1 : depEdge (buildFlowDict c7Flows) "flowA" "flowB" :=
      (by decide : "flowB" ∈ depsOf (buildFlowDict c7Flows) "flowA")
    have e2 : depEdge (buildFlowDict c7Flows) "flowB" "flowA" :=
      (by decide : "flowA" ∈ depsOf (buildFlowDict c7Flows) "flowB")
    exact ⟨"flowA", Relation.TransGen.head e1 (Relation.TransGen.single e2)⟩
  · rfl

/-- Retry constants of engine.py. -/
def FLOW_RETRY_DELAY_SECONDS : ℚ := 1

/-- Gate-retry constant of engine.py. -/
def GATE_RETRY_DELAY_SECONDS : ℚ := 1

/-- Pending-action payload of a scheduled engine event: the explicit form
of the `make_callback` closures of engine.py (each closure only captures
a flow or device id and re-enters `_execute_flow`, `_complete_flow` or
`_complete_device_recovery`). -/
inductive EngineAction
  | attempt (flowId : String)
  | complete (flowId : String)
  | recover (deviceId : String)
deriving DecidableEq, Repr

/-- Type of the deterministic sampling function standing for
`SeededRNG.uniform`: seed, number of previous draws, and the two bounds. -/
def UniformFn : Type := Int → Nat → ℚ → ℚ → ℚ

/-- State of `SimulationEngine`: the validated configuration and every
mutable field of engine.py that affects virtual-clock results.  The
wall-clock pacing fields and the pause flag are omitted (they never
change virtual results; `_paused` is never set during a single-threaded
run). -/
structure EngineState where
  config : RawConfig
  seed : Int
  rngCounter : Nat
  sched : EventScheduler EngineAction
  sm : StateManager
  fc : FlowController
  executionMode : String
  speedMultiplier : ℚ
  flowExecutions : List (String × Nat)
  eventCount : Nat
  cancelled : Bool
  deviceConfigs : List (String × DeviceConf)
deriving DecidableEq, Repr

/-- Construction failures of `SimulationEngine.__init__`. -/
inductive InitError
  | validationErr (errs : List String)
  | keyErr (key : String)
  | flowErr (msg : String)
deriving DecidableEq, Repr

/-- Python `SimulationEngine.__init__`: validate the configuration, read
the seed, construct the Flow Controller (which may raise), initialise
capacity tracking for every device and store the device configs. -/
def SimulationEngine.init (config : RawConfig) :
    Except InitError EngineState :=
  match (ConfigManager.validate config).1 with
  | .error errs => .error (.validationErr errs)
  | .ok tc =>
    match tc.simulation with
    | none => .error (.keyErr "simulation")
    | some sim =>
      match sim.randomSeed with
      | none => .error (.keyErr "random_seed")
      | some seed =>
        match FlowController.init (tc.flows.getD [])
            ((tc.devices.getD []).map (fun d => d.id)) with
        | .error e => .error (.flowErr e)
        | .ok fc =>
          .ok {
            config := tc
            seed := seed
            rngCounter := 0
            sched := EventScheduler.empty
            sm := (tc.devices.getD []).foldl
              (fun sm d => sm.initializeCapacity d.id (d.capacity.getD 1).toNat)
              StateManager.empty
            fc := fc
            executionMode := sim.executionMode.getD "accelerated"
            speedMultiplier := sim.speedMultiplier.getD 1
            flowExecutions := []
            eventCount := 0
            cancelled := false
            deviceConfigs := (tc.devices.getD []).foldl
              (fun m d => setA m d.id d) [] }

/-- Scheduling from inside an engine callback: a raised
`PastTimestampError` propagates as an exception carrying the state
accumulated so far (to be caught by the callback's `try/except`). -/
def engineSchedule (st : EngineState) (ts : ℚ) (eid : String)
    (act : EngineAction) : Except EngineState EngineState :=
  match st.sched.schedule ts eid act with
  | .ok s => .ok { st with sched := s }
  | .error _ => .error st

/-- Python `SimulationEngine._schedule_device_recovery` (total: its own
`try/except` swallows every failure). -/
def scheduleDeviceRecovery (u : UniformFn) (st : EngineState)
    (deviceId : String) : EngineState :=
  match st.deviceConfigs.lookup deviceId with
  | none => st
  | some dc =>
    match dc.recoveryTimeRange with
    | none => st
    | some (mn, mx) =>
      let dur := u st.seed st.rngCounter mn mx
      let st := { st with rngCounter := st.rngCounter + 1 }
      match st.sched.schedule (st.sched.currentTime + dur)
          ("device_recovery_" ++ deviceId ++ "_" ++
            toString st.sched.currentTime)
          (.recover deviceId) with
      | .ok s => { st with sched := s }
      | .error _ => st

/-- A state-machine transition issued by the engine, including the
recovery-callback hook: entering `FAILED` schedules the sampled
recovery.  An `InvalidTransitionError` propagates with the state
unchanged. -/
def engineTransition (u : UniformFn) (st : EngineState) (deviceId : String)
    (event : FsmEvent) : Except EngineState EngineState :=
  match st.sm.transition st.sched.currentTime deviceId event with
  | (.error _, _) => .error st
  | (.ok ns, sm') =>
    let st := { st with sm := sm' }
    .ok (if ns = .FAILED then scheduleDeviceRecovery u st deviceId else st)

/-- Python `gates.get(gate_name, False)`. -/
def gateActive (gates : List (String × Bool)) (g : String) : Bool :=
  (gates.lookup g).getD false

/-- Python `self._flow_executions[flow_id] =
self._flow_executions.get(flow_id, 0) + 1`. -/
def bumpExecution (l : List (String × Nat)) (fid : String) :
    List (String × Nat) :=
  setA l fid ((l.lookup fid).getD 0 + 1)

/-- Python `SimulationEngine._execute_flow` before its `try/except`:
completed-check, gate check (gate-retry), finish-to-start dependency
check (dependency-retry), execution counting, backpressure check with
`BACKPRESSURE_DETECTED` on a Processing source, capacity acquisition on
source then destination (releasing the source on destination failure),
`BACKPRESSURE_CLEARED`/`START_PROCESSING`, uniform sampling of the
process duration and scheduling of the completion event. -/
def executeFlowBody (u : UniformFn) (st : EngineState) (flowId : String) :
    Except EngineState EngineState :=
  if st.fc.isCompleted flowId then .ok st
  else
    match (st.config.flows.getD []).find? (fun f => f.flowId == flowId) with
    | none => .ok st
    | some flow =>
      match flow.requiredGates.find?
          (fun g => !(gateActive (st.config.gates.getD []) g)) with
      | some _ =>
        engineSchedule st (st.sched.currentTime + GATE_RETRY_DELAY_SECONDS)
          ("flow_gate_retry_" ++ flowId ++ "_" ++
            toString st.sched.currentTime)
          (.attempt flowId)
      | none =>
        match flow.dependencies.find? (fun d => !(st.fc.isCompleted d)) with
        | some _ =>
          engineSchedule st
            (st.sched.currentTime + FLOW_RETRY_DELAY_SECONDS)
            ("flow_retry_" ++ flowId ++ "_" ++ toString st.sched.currentTime)
            (.attempt flowId)
        | none =>
          let st := { st with
            flowExecutions := bumpExecution st.flowExecutions flowId }
          if !(st.sm.hasCapacity flow.toDevice) then do
            let st ←
              if st.sm.getState flow.fromDevice = .PROCESSING then
                engineTransition u st flow.fromDevice .BACKPRESSURE_DETECTED
              else pure st
            engineSchedule st
              (st.sched.currentTime + FLOW_RETRY_DELAY_SECONDS)
              ("flow_backpressure_retry_" ++ flowId ++ "_" ++
                toString st.sched.currentTime)
              (.attempt flowId)
          else
            match st.sm.acquireCapacity flow.fromDevice flowId with
            | (false, smA) =>
              engineSchedule { st with sm := smA }
                (st.sched.currentTime + FLOW_RETRY_DELAY_SECONDS)
                ("flow_capacity_retry_" ++ flowId ++ "_" ++
                  toString st.sched.currentTime)
                (.attempt flowId)
            | (true, smA) =>
              let st := { st with sm := smA }
              match st.sm.acquireCapacity flow.toDevice flowId with
              | (false, smB) =>
                let st := { st with
                  sm := smB.releaseCapacity flow.fromDevice flowId }
                engineSchedule st
                  (st.sched.currentTime + FLOW_RETRY_DELAY_SECONDS)
                  ("flow_dest_capacity_retry_" ++ flowId ++ "_" ++
                    toString st.sched.currentTime)
                  (.attempt flowId)
              | (true, smB) => do
                let st := { st with sm := smB }
                let st ←
                  if st.sm.getState flow.fromDevice = .BLOCKED then
                    engineTransition u st flow.fromDevice .BACKPRESSURE_CLEARED
                  else pure st
                let st ←
                  if st.sm.getState flow.fromDevice = .IDLE then
                    engineTransition u st flow.fromDevice .START_PROCESSING
                  else pure st
                match flow.processTimeRange with
                | none => .error st
                | some (mn, mx) =>
                  let dur := u st.seed st.rngCounter mn mx
                  let st := { st with rngCounter := st.rngCounter + 1 }
                  engineSchedule st (st.sched.currentTime + dur)
                    ("flow_complete_" ++ flowId ++ "_" ++
                      toString st.eventCount)
                    (.complete flowId)

/-- Python `SimulationEngine._execute_flow`: the surrounding
`try/except` catches any raised exception, keeping the state mutated so
far and abandoning the flow. -/
def executeFlow (u : UniformFn) (st : EngineState) (flowId : String) :
    EngineState :=
  match executeFlowBody u st flowId with
  | .ok s => s
  | .error s => s

/-- Loop of `_trigger_dependent_flows` over the configured flows. -/
def triggerLoop (completedFlowId : String) :
    EngineState → List FlowConf → Except EngineState EngineState
  | st, [] => .ok st
  | st, flow :: rest =>
    if completedFlowId ∈ flow.dependencies then
      if (flow.dependencies.all (fun dep => st.fc.isCompleted dep)) &&
          !(st.fc.isCompleted flow.flowId) then
        match engineSchedule st st.sched.currentTime
            ("flow_dep_" ++ flow.flowId ++ "_" ++
              toString st.sched.currentTime)
            (.attempt flow.flowId) with
        | .ok st' => triggerLoop completedFlowId st' rest
        | .error st' => .error st'
      else triggerLoop completedFlowId st rest
    else triggerLoop completedFlowId st rest

/-- Python `SimulationEngine._complete_flow` before its `try/except`:
`COMPLETE_PROCESSING` on a Processing source, release of both
capacities, completion marking, and triggering of dependent flows. -/
def completeFlowBody (u : UniformFn) (st : EngineState) (flowId : String) :
    Except EngineState EngineState :=
  match (st.config.flows.getD []).find? (fun f => f.flowId == flowId) with
  | none => .ok st
  | some flow => do
    let st ←
      if st.sm.getState flow.fromDevice = .PROCESSING then
        engineTransition u st flow.fromDevice .COMPLETE_PROCESSING
      else pure st
    let st := { st with sm := st.sm.releaseCapacity flow.fromDevice flowId }
    let st := { st with sm := st.sm.releaseCapacity flow.toDevice flowId }
    let st := { st with fc := st.fc.markCompleted flowId }
    triggerLoop flowId st (st.config.flows.getD [])

/-- Python `SimulationEngine._complete_flow` with its `try/except`. -/
def completeFlow (u : UniformFn) (st : EngineState) (flowId : String) :
    EngineState :=
  match completeFlowBody u st flowId with
  | .ok s => s
  | .error s => s

/-- Python `SimulationEngine._complete_device_recovery` (total: its own
`try/except`). -/
def completeDeviceRecovery (u : UniformFn) (st : EngineState)
    (deviceId : String) : EngineState :=
  if st.sm.getState deviceId = .FAILED then
    match engineTransition u st deviceId .RECOVERY_COMPLETE with
    | .ok s => s
    | .error s => s
  else st

/-- Dispatch of a fired event's callback. -/
def handleAction (u : UniformFn) (st : EngineState) :
    EngineAction → EngineState
  | .attempt fid => executeFlow u st fid
  | .complete fid => completeFlow u st fid
  | .recover did => completeDeviceRecovery u st did

/-- Loop of `_schedule_initial_flows` over the configured flows:
dependency-free `parallel`/`sequence` flows start at t = 0, `custom`
flows at their offset, flows with dependencies are left to be triggered
by dependency completion, and unknown modes default to t = 0.  A raised
scheduling error (negative custom offset) propagates out of `run`. -/
def scheduleInitial : EngineState → List FlowConf → Except String EngineState
  | st, [] => .ok st
  | st, flow :: rest =>
    let mode := flow.offsetMode.getD "parallel"
    if mode = "parallel" then
      if flow.dependencies = [] then
        match st.sched.schedule 0 ("flow_start_" ++ flow.flowId ++ "_0")
            (.attempt flow.flowId) with
        | .ok s => scheduleInitial { st with sched := s } rest
        | .error e => .error e
      else scheduleInitial st rest
    else if mode = "custom" then
      match st.sched.schedule (flow.startOffset.getD 0)
          ("flow_start_" ++ flow.flowId ++ "_0") (.attempt flow.flowId) with
      | .ok s => scheduleInitial { st with sched := s } rest
      | .error e => .error e
    else if mode = "sequence" then
      if flow.dependencies = [] then
        match st.sched.schedule 0 ("flow_start_" ++ flow.flowId ++ "_0")
            (.attempt flow.flowId) with
        | .ok s => scheduleInitial { st with sched := s } rest
        | .error e => .error e
      else scheduleInitial st rest
    else
      match st.sched.schedule 0 ("flow_start_" ++ flow.flowId ++ "_0")
          (.attempt flow.flowId) with
      | .ok s => scheduleInitial { st with sched := s } rest
      | .error e => .error e

/-- Python `SimulationEngine._schedule_initial_flows`. -/
def scheduleInitialFlows (st : EngineState) : Except String EngineState :=
  scheduleInitial st (st.config.flows.getD [])

/-- Duration-bound check of the run loop:
`next_event and next_event.timestamp > duration`. -/
def nextEventExceedsDuration (st : EngineState) (duration : ℚ) : Bool :=
  match st.sched.peekNext with
  | some e => decide (e.timestamp > duration)
  | none => false

/-- The continuation condition of the run loop of engine.py (lines
106-117): events remain, no cancellation was requested, and the next
event does not exceed the configured duration.  The pacing block only
sleeps and the pause loop only spins; neither changes virtual state. -/
def loopGuard (st : EngineState) (duration : ℚ) : Bool :=
  st.sched.hasEvents && !st.cancelled &&
    !(nextEventExceedsDuration st duration)

/-- One iteration of the run loop: `process_next` (pop the minimum event,
advance the clock, run its callback to completion) and the event-count
increment. -/
def engineStep (u : UniformFn) (st : EngineState) : EngineState :=
  match st.sched.processNext with
  | .error _ => st
  | .ok (e, sched') =>
    let st1 := { st with sched := sched' }
    let st2 := handleAction u st1 e.callback
    { st2 with eventCount := st2.eventCount + 1 }

/-- The run loop, with fuel bounding the number of iterations. -/
def runLoop (u : UniformFn) (duration : ℚ) : Nat → EngineState → EngineState
  | 0, st => st
  | fuel + 1, st =>
    if loopGuard st duration then runLoop u duration fuel (engineStep u st)
    else st

/-- Virtual-clock portion of the output of `_generate_output`: the
summary counters, final device states, optional history/timeline and the
per-flow execution counts.  Wall-clock metadata (`datetime.now`,
execution time) and the KPI block (computed by the out-of-scope
`KPICalculator`) are not modelled. -/
structure SimOutput where
  totalEvents : Nat
  totalFlowsCompleted : Nat
  devicesCount : Nat
  simulationTimeSeconds : ℚ
  deviceStates : List (String × String × Nat)
  stateHistory : Option (List HistoryEntry)
  eventTimeline : Option (List HistoryEntry)
  flowsExecuted : List (String × Nat)
deriving DecidableEq, Repr

/-- Python `SimulationEngine._generate_output` (virtual-clock fields);
an absent `output_options` key raises a `KeyError`. -/
def generateOutput (st : EngineState) : Except String SimOutput :=
  match st.config.outputOptions with
  | none => .error "KeyError: output_options"
  | some oo =>
    .ok {
      totalEvents := st.eventCount
      totalFlowsCompleted := (st.flowExecutions.map (fun p => p.2)).sum
      devicesCount := (st.config.devices.getD []).length
      simulationTimeSeconds := st.sched.currentTime
      deviceStates := (st.config.devices.getD []).map (fun d =>
        (d.id, (st.sm.getState d.id).value, (st.sm.getHistory d.id).length))
      stateHistory := if oo.includeHistory then some st.sm.history else none
      eventTimeline := if oo.includeEvents then some st.sm.history else none
      flowsExecuted := (st.config.flows.getD []).map (fun f =>
        (f.flowId, (st.flowExecutions.lookup f.flowId).getD 0)) }

/-- Python `SimulationEngine.run`: schedule the initial flow events, then
process events while the loop guard holds, then assemble the output. -/
def SimulationEngine.run (u : UniformFn) (st : EngineState) (fuel : Nat) :
    Except String SimOutput := do
  let st1 ← scheduleInitialFlows st
  match st1.config.simulation with
  | none => .error "KeyError: duration"
  | some sim =>
    match sim.duration with
    | none => .error "KeyError: duration"
    | some dur => generateOutput (runLoop u dur fuel st1)

/-- C1: determinism.  Two engine instances constructed from the identical
raw configuration (hence the identical `random_seed`, driving the same
deterministic sampling function), run with the same event budget, produce
identical `total_events`, identical `simulation_time_seconds` and an
identical ordered `state_history`. -/
theorem engine_run_deterministic (u : UniformFn) (cfg : RawConfig)
    (fuel : Nat) (st1 st2 : EngineState)
    (h1 : SimulationEngine.init cfg = .ok st1)
    (h2 : SimulationEngine.init cfg = .ok st2) :
    (SimulationEngine.run u st1 fuel).map (fun o => o.totalEvents) =
      (SimulationEngine.run u st2 fuel).map (fun o => o.totalEvents) ∧
    (SimulationEngine.run u st1 fuel).map (fun o => o.simulationTimeSeconds) =
      (SimulationEngine.run u st2 fuel).map
        (fun o => o.simulationTimeSeconds) ∧
    (SimulationEngine.run u st1 fuel).map (fun o => o.stateHistory) =
      (SimulationEngine.run u st2 fuel).map (fun o => o.stateHistory) := by
  rw [h1] at h2
  injection h2 with h
  subst h
  exact ⟨rfl, rfl, rfl⟩

/-- Boolean success test on an `Except` result. -/
def isOkB {ε α : Type} : Except ε α → Bool
  | .ok _ => true
  | .error _ => false

/-- A concrete sampling function (always the lower bound), a valid
instantiation of the deterministic `SeededRNG.uniform` contract. -/
def uniformLow : UniformFn := fun _ _ a _ => a

/-- Witness configuration for C1: two devices and one flow. -/
def c1Config : RawConfig :=
  { simulation := some ⟨some 100, some 42, some "accelerated", none⟩
    devices := some [⟨"devA", none, some 1, none, [], none⟩,
                     ⟨"devB", none, some 1, none, [], none⟩]
    flows := some [⟨"flow1", "devA", "devB", some (10, 20), some 1, [], [],
      none, none⟩]
    gates := some []
    outputOptions := some ⟨true, false⟩ }

/-- Witness for C1: the witness configuration is accepted by engine
construction, and the determinism theorem applies to it. -/
theorem engine_run_deterministic_witness :
    ∃ st, SimulationEngine.init c1Config = .ok st ∧
      (SimulationEngine.run uniformLow st 10).map (fun o => o.totalEvents) =
        (SimulationEngine.run uniformLow st 10).map (fun o => o.totalEvents) ∧
      (SimulationEngine.run uniformLow st 10).map
          (fun o => o.stateHistory) =
        (SimulationEngine.run uniformLow st 10).map
          (fun o => o.stateHistory) := by
  have hok : isOkB (SimulationEngine.init c1Config) = true := by decide
  rcases hinit : SimulationEngine.init c1Config with e | st
  · rw [hinit] at hok
    exact Bool.noConfusion hok
  · have h := engine_run_deterministic uniformLow c1Config 10 st st hinit
      hinit
    exact ⟨st, rfl, h.1, h.2.2⟩

/-- The scheduler state after popping event `e` and leaving `rest`:
`e` is removed from the registry and `current_time` advances to its
timestamp. -/
def poppedSched (s : EventScheduler EngineAction) (e : SchedEvent EngineAction)
    (rest : List (SchedEvent EngineAction)) : EventScheduler EngineAction :=
  { s with
    heap := rest
    registry := eraseA s.registry e.eventId
    currentTime := e.timestamp }

/-- C4: `process_next` raises on an empty heap; otherwise it pops exactly
the pending event with the minimum `(timestamp, insertion_order)` key —
strictly smaller than every remaining event's key when insertion orders
are distinct, which is strict FIFO among equal timestamps — removes it,
advances `current_time` to its timestamp, and the engine's loop iteration
applies the popped callback's effects (and the event-count increment)
before the iteration completes. -/
theorem process_next_pops_minimum (u : UniformFn) (st : EngineState)
    (hwf : DistinctOrders st.sched.heap) :
    (st.sched.heap = [] →
      st.sched.processNext = .error "No events to process") ∧
    (∀ e rest, popMin st.sched.heap = some (e, rest) →
      e ∈ st.sched.heap ∧
      (∀ x ∈ st.sched.heap, keyLe e x) ∧
      (∀ x ∈ rest, keyLt e x) ∧
      st.sched.heap.Perm (e :: rest) ∧
      st.sched.processNext = .ok (e, poppedSched st.sched e rest) ∧
      engineStep u st =
        (fun s2 => { s2 with eventCount := s2.eventCount + 1 })
          (handleAction u { st with sched := poppedSched st.sched e rest }
            e.callback)) := by
  constructor
  · intro hemp
    rw [EventScheduler.processNext,
      show popMin st.sched.heap = none from (popMin_eq_none_iff _).2 hemp]
  · intro e rest hpop
    refine ⟨popMin_mem hpop, popMin_le hpop, popMin_strict hpop hwf,
      popMin_perm hpop, ?_, ?_⟩
    · rw [EventScheduler.processNext, hpop]
      rfl
    · rw [engineStep, EventScheduler.processNext, hpop]
      rfl

/-- Witness engine state for C4: three pending events, two of them tied
on the timestamp. -/
def c4State : EngineState :=
  { config := c1Config
    seed := 42
    rngCounter := 0
    sched := ⟨[⟨5, 0, "e0", .attempt "fx"⟩, ⟨3, 1, "e1", .attempt "fy"⟩,
               ⟨3, 2, "e2", .attempt "fz"⟩], 0, 3, []⟩
    sm := StateManager.empty
    fc := ⟨[], ["devA", "devB"], [], []⟩
    executionMode := "accelerated"
    speedMultiplier := 1
    flowExecutions := []
    eventCount := 0
    cancelled := false
    deviceConfigs := [] }

/-- Witness for C4: among the keys `(5,0)`, `(3,1)`, `(3,2)` the popped
event is `(3,1)` — earliest timestamp, then FIFO — the clock advances to
`3`, and the popped key is strictly below both remaining keys. -/
theorem process_next_pops_minimum_witness :
    c4State.sched.processNext = .ok
      (⟨3, 1, "e1", .attempt "fy"⟩,
        poppedSched c4State.sched ⟨3, 1, "e1", .attempt "fy"⟩
          [⟨5, 0, "e0", .attempt "fx"⟩, ⟨3, 2, "e2", .attempt "fz"⟩]) ∧
    (∀ x ∈ [(⟨5, 0, "e0", .attempt "fx"⟩ : SchedEvent EngineAction),
        ⟨3, 2, "e2", .attempt "fz"⟩],
      keyLt ⟨3, 1, "e1", .attempt "fy"⟩ x) := by
  have h := (process_next_pops_minimum uniformLow c4State
      (by simp [DistinctOrders, c4State, List.pairwise_cons])).2
    ⟨3, 1, "e1", .attempt "fy"⟩
    [⟨5, 0, "e0", .attempt "fx"⟩, ⟨3, 2, "e2", .attempt "fz"⟩] (by rfl)
  exact ⟨h.2.2.2.2.1, h.2.2.1⟩

/-- C5 flow: `flow1` from `devA` to `devB`. -/
def c5Flow1 : FlowConf :=
  ⟨"flow1", "devA", "devB", some (5, 6), some 1, [], [], none, none⟩

/-- C5 flow: `flow3` from `devC` to `devA`, permanently backpressured
while `devA` is saturated. -/
def c5Flow3 : FlowConf :=
  ⟨"flow3", "devC", "devA", some (5, 6), some 1, [], [], none, none⟩

/-- C5 configuration: duration 400, three devices of capacity 1, the two
flows above. -/
def c5Config : RawConfig :=
  { simulation := some ⟨some 400, some 42, some "accelerated", none⟩
    devices := some [⟨"devA", none, some 1, none, [], none⟩,
                     ⟨"devB", none, some 1, none, [], none⟩,
                     ⟨"devC", none, some 1, none, [], none⟩]
    flows := some [c5Flow1, c5Flow3]
    gates := some []
    outputOptions := some ⟨true, true⟩ }

/-- A mid-run engine state of the C5 scenario: `devC` has been Blocked
since t = 0 behind the saturated `devA`, the clock stands at t = 301,
and the pending events are `flow1`'s completion at t = 302 and `flow3`'s
backpressure retry at t = 303. -/
def c5State : EngineState :=
  { config := c5Config
    seed := 42
    rngCounter := 5
    sched := ⟨[⟨302, 700, "flow_complete_flow1_5", .complete "flow1"⟩,
               ⟨303, 701, "flow_backpressure_retry_flow3_302",
                 .attempt "flow3"⟩], 301, 702, []⟩
    sm := ⟨[("devA", .PROCESSING), ("devC", .BLOCKED)], [],
           [("devA", ⟨1, ["flow1"]⟩), ("devB", ⟨1, ["flow1"]⟩),
            ("devC", ⟨1, []⟩)]⟩
    fc := ⟨[("flow1", c5Flow1), ("flow3", c5Flow3)],
           ["devA", "devB", "devC"], [], []⟩
    executionMode := "accelerated"
    speedMultiplier := 1
    flowExecutions := [("flow1", 1), ("flow3", 300)]
    eventCount := 301
    cancelled := false
    deviceConfigs := [("devA", ⟨"devA", none, some 1, none, [], none⟩),
                      ("devB", ⟨"devB", none, some 1, none, [], none⟩),
                      ("devC", ⟨"devC", none, some 1, none, [], none⟩)] }

/-- A deadlock detector (default 300 s threshold) that was told the same
history: `devC` Blocked since t = 0 waiting for `devA`. -/
def c5Detector : DeadlockDetector :=
  ⟨300, [("devC", 0)], [("devC", ["devA"])], []⟩

/-- C5, evaluated at the failing scenario: at t = 301 the deadlock
detector reports a Timeout deadlock for this history, yet the engine's
loop guard still holds — and still holds after the next loop iteration —
so the run continues instead of stopping and surfacing the
`DeadlockInfo`.  The loop guard (engine.py lines 106-117) tests only
pending events, cancellation and the duration bound; engine.py never
constructs or consults a `DeadlockDetector`, and `SimOutput` carries no
deadlock field. -/
theorem run_loop_ignores_deadlock_detector :
    (c5Detector.checkDeadlock 301).1 =
      some ⟨.TIMEOUT, "devC" :: ["devA"], [], 301,
        timeoutMessage "devC" ((301 : ℚ) - 0) 300 ["devA"], none⟩ ∧
    loopGuard c5State 400 = true ∧
    loopGuard (engineStep uniformLow c5State) 400 = true := by
  refine ⟨?_, by decide, by decide⟩
  have hgt : ((301 : ℚ) - 0 > 300) := by norm_num
  have hloop : checkTimeoutLoop c5Detector.timeoutThreshold
      c5Detector.waitingFor c5Detector.detectedDeadlocks 301
      c5Detector.blockedSince =
      (some ⟨.TIMEOUT, "devC" :: ["devA"], [], 301,
        timeoutMessage "devC" ((301 : ℚ) - 0) 300 ["devA"], none⟩,
       [timeoutKey "devC" 0]) := by
    show checkTimeoutLoop 300 [("devC", ["devA"])] [] 301 [("devC", 0)] = _
    rw [checkTimeoutLoop, if_pos hgt]
    rfl
  rw [DeadlockDetector.checkDeadlock, DeadlockDetector.checkTimeoutDeadlock,
    hloop]

/-- C8 configuration: the end-to-end scenario of §8 of the specification
— two devices, one flow A→B with the degenerate fixed range (10, 10) and
seed 42. -/
def c8Config : RawConfig :=
  { simulation := some ⟨some 100, some 42, some "accelerated", none⟩
    devices := some [⟨"DeviceA", some "machine", some 1, none, [], none⟩,
                     ⟨"DeviceB", some "machine", some 1, none, [], none⟩]
    flows := some [⟨"flow1", "DeviceA", "DeviceB", some (10, 10), some 1,
      [], [], none, none⟩]
    gates := some []
    outputOptions := some ⟨true, false⟩ }

/-- C8, evaluated at the failing input: validation rejects the
degenerate range `(10, 10)` under its strict `max > min` rule, so engine
construction fails with `ValidationError` and the expected run (Idle →
Processing at t = 0, completion at t = 10, one completed flow,
`simulation_time_seconds = 10`) never happens. -/
theorem degenerate_range_rejected_at_construction :
    (ConfigManager.validate c8Config).1 =
      .error ["Flow flow1 time range must have min < max"] ∧
    SimulationEngine.init c8Config =
      .error (.validationErr
        ["Flow flow1 time range must have min < max"]) := by
  exact ⟨rfl, rfl⟩

end SimKernel
